import Mathlib

/-!
Verification of the sysbox-runc system-container spec converter and
init-process orchestrator against its natural-language specification.

The Go sources are shallowly embedded: pure functions become Lean
functions, fallible Go functions return a `GoResult` (with an explicit
constructor for Go run-time panics), and every interaction with the
outside world (stat, RPC to the sysbox manager or the sysbox filesystem
daemon, cgroup primitives) is supplied by an explicit environment
record so that the embedded control flow stays executable.

Go slices are modelled as Lean lists; a nil Go slice is identified with
the empty list (the sources never distinguish a non-nil empty slice
from nil in an observable way except where noted in comments).
-/

set_option maxRecDepth 10000

/-- Result of running a piece of Go code: a normal value, an error
return, or a run-time panic (index out of range, slice bounds). -/
inductive GoResult (α : Type) where
  | ok (val : α)
  | err (msg : String)
  | panicked (msg : String)
deriving DecidableEq, Repr

namespace Syscont

/-! ## Data model (OCI runtime spec subset used by the converter) -/

/-- OCI mount entry (`specs.Mount`); `mtype` embeds the Go field `Type`. -/
structure Mount where
  destination : String
  source : String
  mtype : String
  options : List String
deriving DecidableEq, Repr

/-- OCI ID-mapping entry (`specs.LinuxIDMapping`); the Go fields are u32,
modelled as `Nat` (the converter only compares and adds sizes; the claims
under verification stay far below 2^32). -/
structure LinuxIDMapping where
  containerID : Nat
  hostID : Nat
  size : Nat
deriving DecidableEq, Repr

/-- Namespace type (`specs.LinuxNamespaceType`). -/
inductive NsType where
  | pid | ipc | uts | mnt | network | user | cgroup
deriving DecidableEq, Repr

/-- Namespace entry (`specs.LinuxNamespace`). -/
structure LinuxNamespaceE where
  nstype : NsType
  path : String
deriving DecidableEq, Repr

/-- Seccomp action (`specs.LinuxSeccompAction`). -/
inductive SeccompAction where
  | actAllow | actErrno | actKill | actTrap | actTrace | actLog
deriving DecidableEq, Repr

/-- Seccomp argument restriction (`specs.LinuxSeccompArg`). -/
structure SeccompArg where
  index : Nat
  value : Nat
  valueTwo : Nat
  op : String
deriving DecidableEq, Repr

/-- Seccomp syscall entry (`specs.LinuxSyscall`); `args = []` models a
nil / absent `Args` slice. -/
structure LinuxSyscall where
  names : List String
  action : SeccompAction
  args : List SeccompArg
deriving DecidableEq, Repr

/-- Seccomp profile (`specs.LinuxSeccomp`). -/
structure LinuxSeccomp where
  defaultAction : SeccompAction
  architectures : List String
  syscalls : List LinuxSyscall
deriving DecidableEq, Repr

/-- The x86-64 seccomp architecture constant (`specs.ArchX86_64`). -/
def archX86_64 : String := "SCMP_ARCH_X86_64"

structure ProcessUser where
  uid : Nat
  gid : Nat
deriving DecidableEq, Repr

structure LinuxCapabilities where
  bounding : List String
  effective : List String
  inheritable : List String
  permitted : List String
  ambient : List String
deriving DecidableEq, Repr

/-- OCI process section (`specs.Process`); `env` is the list of
NAME=VALUE strings. -/
structure ProcessE where
  args : List String
  env : List String
  user : ProcessUser
  capabilities : LinuxCapabilities
  apparmorProfile : String
  oomScoreAdj : Option Int
deriving DecidableEq, Repr

structure RootE where
  path : String
  readonly : Bool
deriving DecidableEq, Repr

/-- The `spec.Linux` section fields used by the converter. -/
structure LinuxE where
  namespaces : List LinuxNamespaceE
  uidMappings : List LinuxIDMapping
  gidMappings : List LinuxIDMapping
  maskedPaths : List String
  readonlyPaths : List String
  seccomp : Option LinuxSeccomp
deriving DecidableEq, Repr

/-- The container spec (`specs.Spec`). The Go `Root` and `Linux` pointers
can be nil, which `checkSpec` rejects up front; the model only covers
specs where both sections are present (the nil-rejection branch carries
no content for the claims under verification). -/
structure Spec where
  root : RootE
  process : ProcessE
  linux : LinuxE
  mounts : List Mount
deriving DecidableEq, Repr

/-! ## Constants and shared slice utilities -/

def idRangeMin : Nat := 65536

def defaultUid : Nat := 231072
def defaultGid : Nat := 231072

def sysboxFsDirDefault : String := "/var/lib/sysboxfs"

/-- `strings.HasPrefix(s, p)` over the underlying character lists (the
core `String.isPrefixOf` is not kernel-reducible). -/
def strHasPrefix (p s : String) : Bool :=
  p.data.isPrefixOf s.data

/-- Lexicographic string order over the underlying character lists. -/
def charListLe : List Char → List Char → Bool
  | [], _ => true
  | _ :: _, [] => false
  | a :: as, b :: bs =>
    if a.toNat < b.toNat then true
    else if b.toNat < a.toNat then false
    else charListLe as bs

def strLe (s t : String) : Bool :=
  charListLe s.data t.data

/-- `strings.Replace(s, pat, rep, 1)`: replace the first occurrence of
`pat` in `s` by `rep` (the core `String.replace` is not
kernel-reducible). -/
def replaceFirstList (pat rep : List Char) : List Char → List Char
  | [] => []
  | c :: cs =>
    if pat.isPrefixOf (c :: cs) then rep ++ (c :: cs).drop pat.length
    else c :: replaceFirstList pat rep cs

def replaceFirst (s pat rep : String) : String :=
  String.mk (replaceFirstList pat.data rep.data s.data)

/-- Modelled from the spec: `utils.StringSliceRemove` (sysbox-libs, not
among the provided sources) removes from the first slice every element
that occurs in the second slice. -/
def stringSliceRemove (s t : List String) : List String :=
  s.filter (fun x => decide (x ∉ t))

/-- Modelled from the spec: `utils.MountSliceRemove` (sysbox-libs, not
among the provided sources) removes from the first slice every mount
matched by some element of the second slice under the given predicate. -/
def mountSliceRemove (s t : List Mount) (p : Mount → Mount → Bool) : List Mount :=
  s.filter (fun m1 => !(t.any (fun m2 => p m1 m2)))

/-! ## Seccomp reconciliation (`cfgSeccomp`) -/

/-- Modelled from the spec: the built-in system-container syscall
whitelist `syscontSyscallWhitelist` is defined in a source file that is
not part of the provided sources; the spec describes it only as "the
built-in system-container syscall whitelist W" and guarantees
`mount ∈ W` (scenario 5). The general theorems below are parametric in
the whitelist; this small representative list is used for concrete
evaluations only. -/
def syscontSyscallWhitelist : List String := ["mount", "umount2"]

/-- Modelled from the spec: the "restrictions-allowed" list
(`syscontSyscallAllowRestrList`) is not among the provided sources; the
spec describes it only as "a small restrictions-allowed list". The
general theorems are parametric in it. -/
def syscontSyscallAllowRestrList : List String := ["socket"]

/-- Names of all syscalls carrying the given action in a syscall list
(the contents of the Go `allowSet` / `errnoSet` / `killSet`, which are
built by iterating every entry and every name). -/
def actionNames (a : SeccompAction) : List LinuxSyscall → List String
  | [] => []
  | sc :: rest =>
    if sc.action = a then sc.names ++ actionNames a rest else actionNames a rest

/-- One step of the Go blacklist-removal loop
`for i, scName := range sc.Names { if diffSet.Contains(scName) {
sc.Names = append(sc.Names[:i], sc.Names[i+1:]...) } }`.
The loop ranges over the ORIGINAL slice header (length `origLen`) while
`append` mutates the shared backing array in place, so:
`arr` is the backing array contents, `curLen` the current length of
`sc.Names`. Removing at index `i` requires `i + 1 ≤ curLen` (otherwise
Go panics with a slice-bounds error: `sc.Names[i+1:]` has its low index
above the slice length); it shifts `arr[i+1 .. curLen)` one slot left,
leaving a stale copy at position `curLen - 1`, and decrements the
length. The final value of `sc.Names` is the first `curLen` elements of
the backing array. -/
def goSliceRemoveAux (diff : String → Bool) :
    Nat → List String → Nat → Nat → GoResult (List String)
  | 0, arr, _, curLen => .ok (arr.take curLen)
  | fuel + 1, arr, i, curLen =>
    if diff (arr.getD i "") then
      if i + 1 ≤ curLen then
        let arr' := arr.take i ++ ((arr.drop (i + 1)).take (curLen - 1 - i)) ++
          arr.drop (curLen - 1)
        goSliceRemoveAux diff fuel arr' (i + 1) (curLen - 1)
      else .panicked "slice bounds out of range"
    else goSliceRemoveAux diff fuel arr (i + 1) curLen

/-- The Go blacklist-removal loop applied to one syscall entry: the loop
runs exactly `origLen = names.length` iterations (counted down by the
first argument of `goSliceRemoveAux`), starting at index 0 with the
current length equal to `origLen`. -/
def goSliceRemove (diff : String → Bool) (names : List String) : GoResult (List String) :=
  goSliceRemoveAux diff names.length names 0 names.length

/-- The blacklist branch of `cfgSeccomp`: runs the removal loop on each
entry and keeps the entry iff the resulting `sc.Names` slice is non-nil.
The result is non-nil exactly when the original names slice was non-nil
(reassignment by `append` always yields a non-nil slice, and an entry
that enters with nil names performs no loop iteration), so the keep
condition is `sc.names ≠ []`. -/
def blacklistRemove (diff : String → Bool) : List LinuxSyscall → GoResult (List LinuxSyscall)
  | [] => .ok []
  | sc :: rest =>
    match goSliceRemove diff sc.names with
    | .ok names2 =>
      match blacklistRemove diff rest with
      | .ok rest2 =>
        if sc.names = [] then .ok rest2 else .ok ({ sc with names := names2 } :: rest2)
      | .err m => .err m
      | .panicked m => .panicked m
    | .err m => .err m
    | .panicked m => .panicked m

/-- The whitelist branch of `cfgSeccomp`: append one allow entry per
whitelist name missing from the allow set
(`diffSet = syscontAllowSet.Difference(allowSet)`, iterated here in
whitelist order), then strip argument restrictions on every entry with
a name outside the restrictions-allowed list. -/
def stripArgsIfRestricted (restr : List String) (sc : LinuxSyscall) : LinuxSyscall :=
  if sc.names.any (fun n => !(restr.contains n)) then { sc with args := [] } else sc

def seccompWhitelistAdds (wl : List String) (s : LinuxSeccomp) : List LinuxSyscall :=
  (wl.filter (fun n => decide (n ∉ actionNames .actAllow s.syscalls))).map
    (fun n => { names := [n], action := .actAllow, args := [] })

def seccompWhitelistBranch (wl restr : List String) (s : LinuxSeccomp) : LinuxSeccomp :=
  { s with syscalls :=
      (s.syscalls ++ seccompWhitelistAdds wl s).map (stripArgsIfRestricted restr) }

/-- The blacklist diff set of `cfgSeccomp`:
`diffSet = (errnoSet ∪ killSet).Difference(syscontAllowSet)`. -/
def seccompBlacklistDiff (wl : List String) (s : LinuxSeccomp) : String → Bool :=
  fun n => decide ((n ∈ actionNames .actErrno s.syscalls ∨
    n ∈ actionNames .actKill s.syscalls) ∧ n ∉ wl)

/-- `cfgSeccomp`, parametric in the whitelist and restrictions-allowed
list (package-level globals in Go). The Go code computes `diffSet` and
then branches twice on `whitelist`; the two whitelist branches (append
the diff set, then strip argument restrictions) are combined in
`seccompWhitelistBranch`. -/
def cfgSeccompWith (wl restr : List String) :
    Option LinuxSeccomp → GoResult (Option LinuxSeccomp)
  | none => .ok none
  | some s =>
    if archX86_64 ∉ s.architectures then .ok (some s)
    else if s.defaultAction ≠ .actAllow ∧ s.defaultAction ≠ .actErrno ∧
        s.defaultAction ≠ .actKill then
      .err "spec seccomp default actions other than allow, errno, and kill are not supported"
    else if s.defaultAction = .actErrno ∨ s.defaultAction = .actKill then
      .ok (some (seccompWhitelistBranch wl restr s))
    else
      match blacklistRemove (seccompBlacklistDiff wl s) s.syscalls with
      | .ok newSys => .ok (some { s with syscalls := newSys })
      | .err m => .err m
      | .panicked m => .panicked m

/-- `cfgSeccomp` with the built-in (spec-modelled) lists. -/
def cfgSeccomp (s : Option LinuxSeccomp) : GoResult (Option LinuxSeccomp) :=
  cfgSeccompWith syscontSyscallWhitelist syscontSyscallAllowRestrList s

/-! ## ID mappings (`mergeIDMappings`, `validateIDMappings`, `cfgIDMappings`) -/

/-- Insert a mapping into a list sorted by `containerID` (stable). -/
def insertByCid (m : LinuxIDMapping) : List LinuxIDMapping → List LinuxIDMapping
  | [] => [m]
  | x :: xs => if m.containerID ≤ x.containerID then m :: x :: xs else x :: insertByCid m xs

/-- Stable sort of ID mappings by `containerID`. -/
def sortByCid (l : List LinuxIDMapping) : List LinuxIDMapping :=
  l.foldr insertByCid []

/-- Fold consecutive entries that are contiguous both in container IDs
and in host IDs into one range (fuel-counted recursion; each step
consumes one list element, so a fuel of the list length is exact). -/
def foldContiguousAux : Nat → List LinuxIDMapping → List LinuxIDMapping
  | _, [] => []
  | _, [m] => [m]
  | 0, l => l
  | fuel + 1, m1 :: m2 :: rest =>
    if m1.containerID + m1.size = m2.containerID ∧ m1.hostID + m1.size = m2.hostID then
      foldContiguousAux fuel ({ containerID := m1.containerID, hostID := m1.hostID,
                                size := m1.size + m2.size } :: rest)
    else m1 :: foldContiguousAux fuel (m2 :: rest)

def foldContiguous (l : List LinuxIDMapping) : List LinuxIDMapping :=
  foldContiguousAux l.length l

/-- Modelled from the spec: `mergeIDMappings` is called by
`validateIDMappings` but is defined in a source file that is not among
the provided sources. Per the spec it sorts the mappings by
`container_id`, folds consecutive entries whose `container_id + size`
meets the next entry's `container_id` AND whose `host_id + size` meets
the next entry's `host_id`, and the list must reduce to exactly one
range (any failure is a spec-invalid error). It returns that single
range. -/
def mergeIDMappings (l : List LinuxIDMapping) : GoResult LinuxIDMapping :=
  match foldContiguous (sortByCid l) with
  | [m] => .ok m
  | _ => .err "ID mappings do not reduce to one continuous range"

/-- `validateIDMappings` on the uid and gid mapping lists: both lists
non-empty, each merges to a single range starting at container ID 0
with size at least `idRangeMin`, matching host IDs, host ID non-zero.
Returns the merged ranges that the Go code stores back into the spec. -/
def validateIDMappingsL (uids gids : List LinuxIDMapping) :
    GoResult (LinuxIDMapping × LinuxIDMapping) :=
  if uids = [] ∨ gids = [] then .err "detected missing user-ns UID and/or GID mappings"
  else
    match mergeIDMappings uids with
    | .ok um =>
      match mergeIDMappings gids with
      | .ok gm =>
        if um.containerID ≠ 0 ∨ um.size < idRangeMin then
          .err "uid mapping range must specify a container with at least 65536 uids starting at uid 0"
        else if gm.containerID ≠ 0 ∨ gm.size < idRangeMin then
          .err "gid mapping range must specify a container with at least 65536 gids starting at gid 0"
        else if um.hostID ≠ gm.hostID then
          .err "detecting non-matching uid and gid mappings"
        else if um.hostID = 0 then
          .err "detected user-ns uid mapping to host ID 0; this breaks container isolation"
        else if gm.hostID = 0 then
          .err "detected user-ns gid mapping to host ID 0; this breaks container isolation"
        else .ok (um, gm)
      | .err m => .err m
      | .panicked m => .panicked m
    | .err m => .err m
    | .panicked m => .panicked m

/-- Static configuration of the sysbox manager as seen by the converter
(`sysbox.Mgr`), together with the outcomes of its RPCs, which are
supplied by the environment. -/
structure MgrConfig where
  enabled : Bool
  userns : String
  uidMappings : List LinuxIDMapping
  gidMappings : List LinuxIDMapping
  subidResult : GoResult (Nat × Nat)
  prepMountsOk : Bool
  reqMountsResult : GoResult (List Mount)
deriving DecidableEq, Repr

/-- Static configuration of the sysbox filesystem daemon as seen by the
converter (`sysbox.Fs`). -/
structure FsConfig where
  enabled : Bool
  mountpoint : String
  id : String
deriving DecidableEq, Repr

/-- `allocIDMappings`: request a subid range from the manager (or use the
compiled defaults) and install one uid and one gid mapping covering
container ID 0. -/
def allocIDMappings (mgr : MgrConfig) :
    GoResult (List LinuxIDMapping × List LinuxIDMapping) :=
  if mgr.enabled then
    match mgr.subidResult with
    | .ok (uid, gid) =>
      .ok ([{ containerID := 0, hostID := uid, size := idRangeMin }],
           [{ containerID := 0, hostID := gid, size := idRangeMin }])
    | .err m => .err ("subid allocation failed: " ++ m)
    | .panicked m => .panicked m
  else
    .ok ([{ containerID := 0, hostID := defaultUid, size := idRangeMin }],
         [{ containerID := 0, hostID := defaultGid, size := idRangeMin }])

/-- `cfgIDMappings` on the mapping lists: honor manager overrides, then
allocate when both lists are empty, otherwise validate (and store the
merged single ranges). -/
def cfgIDMappingsL (mgr : MgrConfig) (uids gids : List LinuxIDMapping) :
    GoResult (List LinuxIDMapping × List LinuxIDMapping) :=
  let uids := if mgr.enabled ∧ mgr.uidMappings ≠ [] then mgr.uidMappings else uids
  let gids := if mgr.enabled ∧ mgr.gidMappings ≠ [] then mgr.gidMappings else gids
  if uids = [] ∧ gids = [] then allocIDMappings mgr
  else
    match validateIDMappingsL uids gids with
    | .ok (um, gm) => .ok ([um], [gm])
    | .err m => .err m
    | .panicked m => .panicked m

/-- `cfgIDMappings` lifted to the spec. -/
def cfgIDMappings (mgr : MgrConfig) (spec : Spec) : GoResult Spec :=
  match cfgIDMappingsL mgr spec.linux.uidMappings spec.linux.gidMappings with
  | .ok (us, gs) =>
    .ok { spec with linux := { spec.linux with uidMappings := us, gidMappings := gs } }
  | .err m => .err m
  | .panicked m => .panicked m

/-! ## Namespaces (`cfgNamespaces`) -/

def allNsTypes : List NsType := [.pid, .ipc, .uts, .mnt, .network, .user, .cgroup]
def reqNsTypes : List NsType := [.pid, .ipc, .uts, .mnt, .network]

/-- The namespace entries after appending the missing namespace types
(with empty path). The Go set iteration order for the appended entries
is modelled by the order of `allNsTypes`. -/
def cfgNamespacesAdd (spec : Spec) : List LinuxNamespaceE :=
  spec.linux.namespaces ++
    (allNsTypes.filter
      (fun ty => decide (ty ∉ spec.linux.namespaces.map (fun ns => ns.nstype)))).map
      (fun ty => { nstype := ty, path := "" })

/-- The namespace entries after the manager userns path override. -/
def cfgNamespacesFinal (mgr : MgrConfig) (spec : Spec) : List LinuxNamespaceE :=
  if mgr.enabled ∧ mgr.userns ≠ "" then
    (cfgNamespacesAdd spec).map
      (fun ns => if ns.nstype = .user then { ns with path := mgr.userns } else ns)
  else cfgNamespacesAdd spec

/-- `cfgNamespaces`: require the five base namespaces, append any of the
seven that are missing (with empty path), then apply the manager userns
path override to the user namespace entries. -/
def cfgNamespaces (mgr : MgrConfig) (spec : Spec) : GoResult Spec :=
  if ¬ (∀ ty ∈ reqNsTypes, ty ∈ spec.linux.namespaces.map (fun ns => ns.nstype)) then
    .err "container spec missing namespaces"
  else
    .ok { spec with linux := { spec.linux with namespaces := cfgNamespacesFinal mgr spec } }

/-! ## Capabilities, paths, OOM score, systemd env -/

/-- The full Linux capability list (`linuxCaps`). -/
def linuxCaps : List String :=
  ["CAP_CHOWN", "CAP_DAC_OVERRIDE", "CAP_FSETID", "CAP_FOWNER", "CAP_MKNOD",
   "CAP_NET_RAW", "CAP_SETGID", "CAP_SETUID", "CAP_SETFCAP", "CAP_SETPCAP",
   "CAP_NET_BIND_SERVICE", "CAP_SYS_CHROOT", "CAP_KILL", "CAP_AUDIT_WRITE",
   "CAP_DAC_READ_SEARCH", "CAP_LINUX_IMMUTABLE", "CAP_NET_BROADCAST",
   "CAP_NET_ADMIN", "CAP_IPC_LOCK", "CAP_IPC_OWNER", "CAP_SYS_MODULE",
   "CAP_SYS_RAWIO", "CAP_SYS_PTRACE", "CAP_SYS_PACCT", "CAP_SYS_ADMIN",
   "CAP_SYS_BOOT", "CAP_SYS_NICE", "CAP_SYS_RESOURCE", "CAP_SYS_TIME",
   "CAP_SYS_TTY_CONFIG", "CAP_LEASE", "CAP_AUDIT_CONTROL", "CAP_MAC_OVERRIDE",
   "CAP_MAC_ADMIN", "CAP_SYSLOG", "CAP_WAKE_ALARM", "CAP_BLOCK_SUSPEND",
   "CAP_AUDIT_READ"]

/-- `cfgCapabilities`: a root-owned init process gets all capabilities in
all five sets; any other uid gets the full bounding set and empty
runtime sets. -/
def cfgCapabilities (p : ProcessE) : ProcessE :=
  if p.user.uid = 0 then
    { p with capabilities :=
      { bounding := linuxCaps, effective := linuxCaps, inheritable := linuxCaps,
        permitted := linuxCaps, ambient := linuxCaps } }
  else
    { p with capabilities :=
      { bounding := linuxCaps, effective := [], inheritable := [],
        permitted := [], ambient := [] } }

def sysboxRwPaths : List String := ["/proc", "/proc/sys"]

def sysboxExposedPaths : List String :=
  ["/proc", "/proc/sys", "/proc/kcore", "/proc/kallsyms", "/proc/kmsg"]

def sysboxSystemdExposedPaths : List String :=
  ["/run", "/run/lock", "/tmp", "/sys/kernel/config", "/sys/kernel/debug",
   "/sys/kernel/tracing"]

def sysboxSystemdRwPaths : List String :=
  ["/run", "/run/lock", "/tmp", "/sys/kernel/config", "/sys/kernel/debug",
   "/sys/kernel/tracing"]

/-- `systemdInit` reads `p.Args[0]` unconditionally; on an empty args
slice Go panics with an index-out-of-range error. -/
def systemdInit (p : ProcessE) : GoResult Bool :=
  match p.args with
  | [] => .panicked "index out of range"
  | a :: _ => .ok (decide (a = "/sbin/init"))

/-- The masked-path list after `cfgMaskedPaths` (given the systemd
test's value `bs`). -/
def maskedAfter (spec : Spec) (bs : Bool) : List String :=
  stringSliceRemove
    (if bs then stringSliceRemove spec.linux.maskedPaths sysboxSystemdExposedPaths
     else spec.linux.maskedPaths) sysboxExposedPaths

/-- The read-only path list after `cfgReadonlyPaths` (given the systemd
test's value `bs`). -/
def readonlyAfter (spec : Spec) (bs : Bool) : List String :=
  stringSliceRemove
    (if bs then stringSliceRemove spec.linux.readonlyPaths sysboxSystemdRwPaths
     else spec.linux.readonlyPaths) sysboxRwPaths

/-- `cfgMaskedPaths`: remove the systemd exposed paths (when running
systemd) and then the always-exposed paths from `masked_paths`. -/
def cfgMaskedPaths (spec : Spec) : GoResult Spec :=
  match systemdInit spec.process with
  | .ok b =>
    .ok { spec with linux := { spec.linux with maskedPaths := maskedAfter spec b } }
  | .err m => .err m
  | .panicked m => .panicked m

/-- `cfgReadonlyPaths`: remove the systemd read-write paths (when running
systemd) and then the always read-write paths from `readonly_paths`. -/
def cfgReadonlyPaths (spec : Spec) : GoResult Spec :=
  match systemdInit spec.process with
  | .ok b =>
    .ok { spec with linux := { spec.linux with readonlyPaths := readonlyAfter spec b } }
  | .err m => .err m
  | .panicked m => .panicked m

/-- `cfgOomScoreAdj`: clamp the OOM score adjustment to -999. -/
def cfgOomScoreAdj (spec : Spec) : Spec :=
  match spec.process.oomScoreAdj with
  | some v =>
    if v < -999 then
      { spec with process := { spec.process with oomScoreAdj := some (-999) } }
    else spec
  | none => spec

def sysboxSystemdEnvVars : List String := ["container=private-users"]

/-- Modelled from the spec: `utils.GetEnvVarInfo` (sysbox-libs, not among
the provided sources) splits a NAME=VALUE string; a string without an
equals sign is an error. -/
def getEnvVarInfo (v : String) : GoResult (String × String) :=
  if v.contains (Char.ofNat 61) then
    let name := (v.splitOn "=").headD ""
    .ok (name, v.drop (name.length + 1))
  else .err "invalid environment variable"

/-- `cfgSystemdEnv`: drop any env var whose name matches a sysbox systemd
env var name, then append the sysbox systemd env vars. -/
def cfgSystemdEnv (p : ProcessE) : ProcessE :=
  let keep := p.env.filter (fun v =>
    match getEnvVarInfo v with
    | .ok (name, _) =>
      !(sysboxSystemdEnvVars.any (fun sv =>
        match getEnvVarInfo sv with
        | .ok (sname, _) => decide (name = sname)
        | _ => false))
    | _ => true)
  { p with env := keep ++ sysboxSystemdEnvVars }

/-! ## Mount planner -/

/-- The sysbox required mounts table (`sysboxMounts`). -/
def sysboxMounts : List Mount :=
  [{ destination := "/sys", source := "sysfs", mtype := "sysfs",
     options := ["noexec", "nosuid", "nodev"] },
   { destination := "/sys/fs/cgroup", source := "cgroup", mtype := "cgroup",
     options := ["noexec", "nosuid", "nodev"] },
   { destination := "/sys/kernel/config", source := "tmpfs", mtype := "tmpfs",
     options := ["rw", "rprivate", "noexec", "nosuid", "nodev", "size=1m"] },
   { destination := "/sys/kernel/debug", source := "tmpfs", mtype := "tmpfs",
     options := ["rw", "rprivate", "noexec", "nosuid", "nodev", "size=1m"] },
   { destination := "/sys/kernel/tracing", source := "tmpfs", mtype := "tmpfs",
     options := ["rw", "rprivate", "noexec", "nosuid", "nodev", "size=1m"] },
   { destination := "/proc", source := "proc", mtype := "proc",
     options := ["noexec", "nosuid", "nodev"] },
   { destination := "/dev", source := "tmpfs", mtype := "tmpfs",
     options := ["nosuid", "strictatime", "mode=755", "size=65536k"] },
   { destination := "/dev/kmsg", source := "/dev/null", mtype := "bind",
     options := ["rbind", "rprivate"] }]

/-- The sysbox-fs virtualized mounts table (`sysboxFsMounts`); the
sources are `filepath.Join(SysboxFsDir, relative-path)` spelled out. -/
def sysboxFsMounts : List Mount :=
  [{ destination := "/proc/sys", source := "/var/lib/sysboxfs/proc/sys",
     mtype := "bind", options := ["rbind", "rprivate"] },
   { destination := "/proc/swaps", source := "/var/lib/sysboxfs/proc/swaps",
     mtype := "bind", options := ["rbind", "rprivate"] },
   { destination := "/proc/uptime", source := "/var/lib/sysboxfs/proc/uptime",
     mtype := "bind", options := ["rbind", "rprivate"] },
   { destination := "/sys/devices/virtual/dmi/id/product_uuid",
     source := "/var/lib/sysboxfs/sys/devices/virtual/dmi/id/product_uuid",
     mtype := "bind", options := ["rbind", "rprivate"] },
   { destination := "/sys/module/nf_conntrack/parameters/hashsize",
     source := "/var/lib/sysboxfs/sys/module/nf_conntrack/parameters/hashsize",
     mtype := "bind", options := ["rbind", "rprivate"] }]

/-- The sysbox systemd mounts table (`sysboxSystemdMounts`). -/
def sysboxSystemdMounts : List Mount :=
  [{ destination := "/run", source := "tmpfs", mtype := "tmpfs",
     options := ["rw", "rprivate", "nosuid", "nodev", "mode=755", "size=64m"] },
   { destination := "/run/lock", source := "tmpfs", mtype := "tmpfs",
     options := ["rw", "rprivate", "noexec", "nosuid", "nodev", "size=4m"] }]

/-- The guard entry used to drop user mounts under `/sys/fs/cgroup/`. -/
def cgroupGuardMounts : List Mount :=
  [{ destination := "/sys/fs/cgroup/", source := "", mtype := "", options := [] }]

/-- The sysbox required mounts table after the read-only rewrite: every
entry with a destination under `/sys` has `rw` removed and `ro`
appended. -/
def sysboxMountsRo : List Mount :=
  sysboxMounts.map (fun m =>
    if strHasPrefix "/sys" m.destination then
      { m with options := stringSliceRemove m.options ["rw"] ++ ["ro"] }
    else m)

/-- `cfgSysboxMounts`: drop user mounts under `/sys/fs/cgroup/`, drop
user mounts colliding with a sysbox required destination, rewrite the
required table to read-only under `/sys` when the rootfs is read-only
(the Go code writes the rewritten table back into the package global;
within a single conversion this is equivalent to the fresh copy
`sysboxMountsRo` used here), and append the table. -/
def cfgSysboxMountsList (spec : Spec) : List Mount :=
  mountSliceRemove
    (mountSliceRemove spec.mounts cgroupGuardMounts
      (fun m1 m2 => strHasPrefix m2.destination m1.destination))
    sysboxMounts (fun m1 m2 => decide (m1.destination = m2.destination)) ++
  (if spec.root.readonly then sysboxMountsRo else sysboxMounts)

def cfgSysboxMounts (spec : Spec) : Spec :=
  { spec with mounts := cfgSysboxMountsList spec }

/-- The destinations virtualized by sysbox-fs. -/
def fsDests : List String := sysboxFsMounts.map (fun m => m.destination)

/-- The sysbox-fs mounts with the per-container mountpoint substituted
into the sources (`strings.Replace(source, SysboxFsDir, mountpoint/id,
1)`; every table source contains `SysboxFsDir` exactly once, so
replace-all coincides with replace-first; `filepath.Join` is modelled
as concatenation with a slash). -/
def substFsSource (fs : FsConfig) (m : Mount) : Mount :=
  { m with source :=
      replaceFirst m.source sysboxFsDirDefault (fs.mountpoint ++ "/" ++ fs.id) }

def sysboxFsMountsFor (fs : FsConfig) : List Mount :=
  sysboxFsMounts.map (substFsSource fs)

/-- `cfgSysboxFsMounts`: drop user mounts colliding with a virtualized
destination, record the virtualized destinations in `readonly_paths`
when the rootfs is read-only, and append the substituted mounts. -/
def cfgSysboxFsMountsList (fs : FsConfig) (spec : Spec) : List Mount :=
  mountSliceRemove spec.mounts sysboxFsMounts
    (fun m1 m2 => decide (m1.destination = m2.destination)) ++
  sysboxFsMountsFor fs

def cfgSysboxFsRoPaths (spec : Spec) : List String :=
  if spec.root.readonly then spec.linux.readonlyPaths ++ fsDests
  else spec.linux.readonlyPaths

def cfgSysboxFsMounts (fs : FsConfig) (spec : Spec) : Spec :=
  { spec with mounts := cfgSysboxFsMountsList fs spec,
              linux := { spec.linux with readonlyPaths := cfgSysboxFsRoPaths spec } }

/-- The spec mounts that survive `cfgSystemdMounts`: mounts colliding
with a systemd destination are dropped unless they are tmpfs mounts. -/
def systemdKeepMounts (spec : Spec) : List Mount :=
  mountSliceRemove spec.mounts sysboxSystemdMounts
    (fun m1 m2 => decide (m1.destination = m2.destination) && decide (m1.mtype ≠ "tmpfs"))

/-- `cfgSystemdMounts`: drop spec mounts that collide with a systemd
destination unless they are tmpfs mounts, keep only the systemd table
entries whose destination is not covered by a remaining tmpfs spec
mount, and append them. -/
def systemdAddMounts (spec : Spec) : List Mount :=
  mountSliceRemove sysboxSystemdMounts (systemdKeepMounts spec)
    (fun m1 m2 => decide (m1.destination = m2.destination) && decide (m2.mtype = "tmpfs"))

def cfgSystemdMounts (spec : Spec) : Spec :=
  { spec with mounts := systemdKeepMounts spec ++ systemdAddMounts spec }

/-- The sysbox required destinations under `/sys` (the entries of
`sysboxMounts` whose destination starts with `/sys`). -/
def sysSysDests : List String :=
  ["/sys", "/sys/fs/cgroup", "/sys/kernel/config", "/sys/kernel/debug",
   "/sys/kernel/tracing"]

/-- Invariant threaded through the mount pipeline of a read-only-rootfs
conversion: the sysbox `/sys` mounts are read-only, the virtualized
sysbox-fs mounts are present, are not marked read-only, and their
destinations are recorded in `readonly_paths`. -/
structure MountRoInv (sp : Spec) : Prop where
  sysRo : ∀ m ∈ sp.mounts, m.destination ∈ sysSysDests →
    "ro" ∈ m.options ∧ "rw" ∉ m.options
  fsPresent : ∀ d ∈ fsDests, ∃ m, m ∈ sp.mounts ∧ m.destination = d
  fsNoRo : ∀ m ∈ sp.mounts, m.destination ∈ fsDests → "ro" ∉ m.options
  fsRoPaths : ∀ d ∈ fsDests, d ∈ sp.linux.readonlyPaths

/-- The special destinations backed by sysbox-mgr mounts
(`specialDir`). -/
def specialDirs : List String :=
  ["/var/lib/docker", "/var/lib/kubelet", "/var/lib/rancher/k3s",
   "/var/lib/containerd/io.containerd.snapshotter.v1.overlayfs"]

/-- Environment of one conversion: results of every operation that
leaves the converter (stat calls, uid-shift detection, manager RPCs,
absolute-path resolution). -/
structure ConvEnv where
  selfNetNs : GoResult (Nat × Nat)
  statPath : String → GoResult (Nat × Nat)
  mgr : MgrConfig
  fs : FsConfig
  uidShift : GoResult (Bool × Bool)
  absRootOk : Bool

/-- `sysMgrSetupMounts`: read the container host uid and gid from the
first mapping entries (a Go index panic if the mapping lists are
empty), ask the manager to prepare user bind mounts over special
directories when present, request the backing mounts (RPC results come
from the environment; the request payload computation is not modelled),
drop manager mounts that collide with a spec destination, mark the
manager mounts read-only when the rootfs is read-only, and append
them. -/
def mgrExtraMounts (spec : Spec) (mgrMounts : List Mount) : List Mount :=
  if spec.root.readonly then
    (mountSliceRemove mgrMounts spec.mounts
      (fun m1 m2 => decide (m1.destination = m2.destination))).map
      (fun m => { m with options := stringSliceRemove m.options ["rw"] ++ ["ro"] })
  else
    mountSliceRemove mgrMounts spec.mounts
      (fun m1 m2 => decide (m1.destination = m2.destination))

def sysMgrSetupMounts (env : ConvEnv) (spec : Spec) : GoResult Spec :=
  match spec.linux.uidMappings, spec.linux.gidMappings with
  | _ :: _, _ :: _ =>
    if (spec.mounts.any (fun m =>
        decide (m.mtype = "bind") && specialDirs.contains m.destination)) ∧
        env.mgr.prepMountsOk = false then
      .err "prep mounts failed"
    else if env.absRootOk = false then .err "abs root path failed"
    else
      match env.mgr.reqMountsResult with
      | .ok mgrMounts => .ok { spec with mounts := spec.mounts ++ mgrExtraMounts spec mgrMounts }
      | .err m => .err m
      | .panicked m => .panicked m
  | _, _ => .panicked "index out of range"

/-- Ordering used by the mount sort: by destination string. Modelled
from the spec: `sortMounts` is not among the provided sources; the spec
orders mounts so that a parent destination precedes its children
(prefix first, otherwise lexicographic), which string order gives for
slash-separated paths. Only the fact that the sort permutes the list is
used by the theorems. -/
def insertMount (m : Mount) : List Mount → List Mount
  | [] => [m]
  | x :: xs =>
    if strLe m.destination x.destination then m :: x :: xs else x :: insertMount m xs

def sortMountList (l : List Mount) : List Mount :=
  l.foldr insertMount []

def sortMounts (spec : Spec) : Spec :=
  { spec with mounts := sortMountList spec.mounts }

/-- The mount list after the sysbox required and sysbox-fs stages. -/
def mountBase (env : ConvEnv) (spec : Spec) : Spec :=
  if env.fs.enabled then cfgSysboxFsMounts env.fs (cfgSysboxMounts spec)
  else cfgSysboxMounts spec

/-- `cfgMounts`: sysbox required mounts, sysbox-fs virtualized mounts,
manager mounts, systemd mounts, then sort. -/
def cfgMounts (env : ConvEnv) (spec : Spec) : GoResult Spec :=
  match (if env.mgr.enabled then sysMgrSetupMounts env (mountBase env spec)
         else .ok (mountBase env spec)) with
  | .ok spec2 =>
    match systemdInit spec2.process with
    | .ok b => .ok (sortMounts (if b then cfgSystemdMounts spec2 else spec2))
    | .err m => .err m
    | .panicked m => .panicked m
  | .err m => .err m
  | .panicked m => .panicked m

/-! ## Spec check (`checkSpec`) and the conversion pipeline -/

/-- `checkSpec`: the first network namespace entry with a non-empty path
must not stat (device, inode) equal to the runtime's own
`/proc/self/ns/net`. The Go nil checks on `spec.Root` / `spec.Linux`
are outside this model (both sections are always present here). -/
def checkSpec (env : ConvEnv) (spec : Spec) : GoResult Unit :=
  match spec.linux.namespaces.find?
      (fun ns => decide (ns.nstype = .network ∧ ns.path ≠ "")) with
  | none => .ok ()
  | some ns =>
    match env.selfNetNs with
    | .ok st1 =>
      match env.statPath ns.path with
      | .ok st2 =>
        if st1.1 = st2.1 ∧ st1.2 = st2.2 then
          .err "sysbox containers cannot share a network namespace with the host"
        else .ok ()
      | .err m => .err ("unable to stat " ++ ns.path ++ ": " ++ m)
      | .panicked m => .panicked m
    | .err m => .err ("unable to stat sysbox network namespace: " ++ m)
    | .panicked m => .panicked m

/-- `cfgAppArmor` always clears the profile (and never fails). -/
def cfgAppArmor (p : ProcessE) : ProcessE :=
  { p with apparmorProfile := "" }

/-- `ConvertProcessSpec`: capabilities, apparmor, systemd env vars. -/
def ConvertProcessSpec (p : ProcessE) : GoResult ProcessE :=
  let p := cfgCapabilities p
  let p := cfgAppArmor p
  match systemdInit p with
  | .ok b => .ok (if b then cfgSystemdEnv p else p)
  | .err m => .err m
  | .panicked m => .panicked m

/-- The steps of `ConvertSpec` from the mount configuration onwards
(mounts, masked and read-only paths, OOM score, seccomp, process). -/
def convertTail (env : ConvEnv) (spec : Spec) : GoResult Spec :=
  match cfgMounts env spec with
  | .err m => .err ("invalid mount config: " ++ m)
  | .panicked m => .panicked m
  | .ok spec2 =>
    match cfgMaskedPaths spec2 with
    | .err m => .err m
    | .panicked m => .panicked m
    | .ok spec3 =>
      match cfgReadonlyPaths spec3 with
      | .err m => .err m
      | .panicked m => .panicked m
      | .ok spec4 =>
        match cfgSeccomp (cfgOomScoreAdj spec4).linux.seccomp with
        | .err m => .err ("failed to configure seccomp: " ++ m)
        | .panicked m => .panicked m
        | .ok sec =>
          match ConvertProcessSpec (cfgOomScoreAdj spec4).process with
          | .err m => .err ("failed to configure process spec: " ++ m)
          | .panicked m => .panicked m
          | .ok p =>
            .ok { cfgOomScoreAdj spec4 with
                  linux := { (cfgOomScoreAdj spec4).linux with seccomp := sec },
                  process := p }

/-- `ConvertSpec`: the full conversion pipeline. Returns the converted
spec together with the two uid-shifting booleans. -/
def ConvertSpec (env : ConvEnv) (spec : Spec) : GoResult (Spec × Bool × Bool) :=
  match checkSpec env spec with
  | .err m => .err ("invalid or unsupported container spec: " ++ m)
  | .panicked m => .panicked m
  | .ok _ =>
    match cfgNamespaces env.mgr spec with
    | .err m => .err ("invalid namespace config: " ++ m)
    | .panicked m => .panicked m
    | .ok spec =>
      match cfgIDMappings env.mgr spec with
      | .err m => .err ("invalid user/group ID config: " ++ m)
      | .panicked m => .panicked m
      | .ok spec =>
        match env.uidShift with
        | .err m => .err m
        | .panicked m => .panicked m
        | .ok (uidShiftSupported, uidShiftRootfs) =>
          match convertTail env spec with
          | .err m => .err m
          | .panicked m => .panicked m
          | .ok spec => .ok (spec, uidShiftSupported, uidShiftRootfs)

/-- Whether a Go result is a normal return. -/
def convIsOk {α : Type} : GoResult α → Bool
  | .ok _ => true
  | _ => false

/-- A placeholder spec (used only as the fallback of `convSpecOf`). -/
def emptySpec : Spec :=
  { root := { path := "", readonly := false },
    process := { args := [], env := [], user := ⟨0, 0⟩,
                 capabilities := ⟨[], [], [], [], []⟩, apparmorProfile := "",
                 oomScoreAdj := none },
    linux := { namespaces := [], uidMappings := [], gidMappings := [],
               maskedPaths := [], readonlyPaths := [], seccomp := none },
    mounts := [] }

/-- The converted spec of a successful conversion. -/
def convSpecOf : GoResult (Spec × Bool × Bool) → Spec
  | .ok (s, _, _) => s
  | _ => emptySpec

/-! ### Concrete inputs used by the witnesses and counterexamples -/

/-- The C1 failing input: an x86-64 profile in blacklist mode (default
action allow) with an explicit errno entry on `mount`, which is in the
system-container whitelist. -/
def c1Profile : LinuxSeccomp :=
  { defaultAction := .actAllow, architectures := [archX86_64],
    syscalls := [{ names := ["mount"], action := .actErrno, args := [] }] }

/-- A manager configuration with the manager disabled. -/
def mgrDisabled : MgrConfig :=
  { enabled := false, userns := "", uidMappings := [], gidMappings := [],
    subidResult := .err "disabled", prepMountsOk := true, reqMountsResult := .ok [] }

/-- A sysbox-fs configuration with the daemon disabled. -/
def fsDisabled : FsConfig := { enabled := false, mountpoint := "", id := "" }

/-- The environment of the C6 witness: the path stat always returns the
same device and inode as the runtime's own network namespace. -/
def c6Env : ConvEnv :=
  { selfNetNs := GoResult.ok (4, 4026531992),
    statPath := (fun _ => GoResult.ok (4, 4026531992)),
    mgr := mgrDisabled,
    fs := fsDisabled,
    uidShift := GoResult.ok (false, false),
    absRootOk := true }

/-- A minimal process for the concrete conversions. -/
def c6Process : ProcessE :=
  { args := ["/bin/sh"], env := [], user := ⟨0, 0⟩,
    capabilities := ⟨[], [], [], [], []⟩, apparmorProfile := "", oomScoreAdj := none }

/-- A Linux section whose network namespace entry names a host path. -/
def c6Linux : LinuxE :=
  { namespaces := [⟨NsType.pid, ""⟩, ⟨NsType.network, "/proc/1/ns/net"⟩],
    uidMappings := [], gidMappings := [], maskedPaths := [], readonlyPaths := [],
    seccomp := none }

/-- The C6 witness spec. -/
def c6Spec : Spec :=
  { root := { path := "/r", readonly := false },
    process := c6Process, linux := c6Linux, mounts := [] }

/-- The environment of the concrete read-only-rootfs conversion:
manager disabled, sysbox-fs enabled. -/
def c2Env : ConvEnv :=
  { selfNetNs := GoResult.ok (1, 1),
    statPath := (fun _ => GoResult.ok (2, 2)),
    mgr := mgrDisabled,
    fs := { enabled := true, mountpoint := "/var/lib/sysboxfs", id := "cid1" },
    uidShift := GoResult.ok (false, false),
    absRootOk := true }

/-- A complete Linux section with the five standard namespaces and one
identity-sized user-namespace mapping per kind. -/
def c2Linux : LinuxE :=
  { namespaces := [⟨NsType.pid, ""⟩, ⟨NsType.ipc, ""⟩, ⟨NsType.uts, ""⟩,
      ⟨NsType.mnt, ""⟩, ⟨NsType.network, ""⟩],
    uidMappings := [⟨0, 100000, 65536⟩], gidMappings := [⟨0, 100000, 65536⟩],
    maskedPaths := [], readonlyPaths := [], seccomp := none }

/-- The C2 read-only-rootfs spec. -/
def c2Spec : Spec :=
  { root := { path := "/r", readonly := true },
    process := c6Process, linux := c2Linux, mounts := [] }

/-- The concrete systemd conversion used as the C5 witness. -/
def c5Spec : Spec :=
  { root := { path := "/r", readonly := false },
    process := { args := ["/sbin/init"], env := [], user := ⟨0, 0⟩,
                 capabilities := ⟨[], [], [], [], []⟩, apparmorProfile := "",
                 oomScoreAdj := none },
    linux := c2Linux, mounts := [] }

/-- The environment of the C5 witness conversion. -/
def c5Env : ConvEnv :=
  { selfNetNs := GoResult.ok (1, 1),
    statPath := (fun _ => GoResult.ok (2, 2)),
    mgr := mgrDisabled,
    fs := fsDisabled,
    uidShift := GoResult.ok (false, false),
    absRootOk := true }

end Syscont

namespace Orchestrator

/-!
## Init-process orchestrator (`process_linux.go`)

The parent-side launch state machines (`initProcess.start`,
`setnsProcess.start`) are embedded as functions from an environment —
the outcome of every OS primitive, cgroup operation, RPC and the
sequence of sync messages the child sends — to the error result of the
launch together with a trace of the security-relevant actions the
parent performed (signals, reaping, cgroup/RDT destruction, sysbox-fs
registration, protocol replies). `parseSync` itself is not among the
provided sources; per the spec the sync loop handles child messages in
order until end of stream, stopping at the first handler error.
-/

/-- Cgroup manager type (`cgroups.Cgroup_v1_fs` etc.). -/
inductive CgroupType where
  | v1fs | v1systemd | v2fs | v2systemd
deriving DecidableEq, Repr

def CgroupType.isV1 : CgroupType → Bool
  | .v1fs | .v1systemd => true
  | _ => false

def CgroupType.isV2 : CgroupType → Bool
  | .v2fs | .v2systemd => true
  | _ => false

/-- Security-relevant actions the parent performs during a launch. -/
inductive Event where
  | killEv          -- SIGKILL to the bootstrapper (terminate)
  | waitEv          -- wait for the bootstrapper to be reaped (terminate)
  | destroyCgroupEv -- cgroup manager Destroy
  | destroyRdtEv    -- Intel RDT manager Destroy
  | registerEv      -- sysbox-fs Register call
  | runMsgEv        -- sync message `procRun` written successfully
  | resumeMsgEv     -- sync message `procResume` written successfully
  | fallbackWriteEv -- setns cgroup v2 fallback: WriteCgroupProc on the init cgroup dir
deriving DecidableEq, Repr

/-- Outcomes of the calls made while handling `procReady`. -/
structure ProcReadyEnv where
  rlimitsOk : Bool
  rdtSetOk : Bool
  ociStateOk : Bool
  prestartOk : Bool
  createRuntimeOk : Bool
  updateStateOk : Bool
  writeRunOk : Bool
deriving DecidableEq, Repr

/-- Outcomes of the calls made while handling `rootfsReady`. -/
structure RootfsReadyEnv where
  createChildOk : Bool
  applyChildOk : Bool
  registerOk : Bool
  writeAckOk : Bool
deriving DecidableEq, Repr

/-- Outcomes of the calls made while handling `procHooks`. -/
structure ProcHooksEnv where
  rdtSetOk : Bool
  ociStateOk : Bool
  prestartOk : Bool
  createRuntimeOk : Bool
  writeResumeOk : Bool
deriving DecidableEq, Repr

/-- Outcomes of the calls made while handling `reqOp`. -/
structure ReqOpEnv where
  writeSendOpInfoOk : Bool
  decodeOk : Bool
  handleOk : Bool
  writeOpDoneOk : Bool
deriving DecidableEq, Repr

/-- Outcomes of the calls made while handling `procFd`. -/
structure ProcFdEnv where
  writeSendFdOk : Bool
  recvFdOk : Bool
  seccompInitOk : Bool
  writeFdDoneOk : Bool
deriving DecidableEq, Repr

/-- A sync message received from the child, bundled with the outcomes of
the external calls its handler performs. -/
inductive SyncMsg where
  | procReady (e : ProcReadyEnv)
  | rootfsReady (e : RootfsReadyEnv)
  | procHooks (e : ProcHooksEnv)
  | reqOp (e : ReqOpEnv)
  | procFd (e : ProcFdEnv)
  | unknown
deriving DecidableEq, Repr

/-- Static configuration of an init launch. -/
structure InitConfigM where
  hasNewMountNs : Bool     -- config.Namespaces.Contains(NEWNS)
  hasCgroupNsNoPath : Bool -- NEWCGROUP present with empty path
  hooksConfigured : Bool   -- config.Hooks != nil
  rdtConfigured : Bool     -- intelRdtManager != nil
  sysFsEnabled : Bool      -- container.sysFs.Enabled()
  cgType : CgroupType
deriving DecidableEq, Repr

/-- Outcomes of every fallible step of `initProcess.start` outside the
sync loop, plus the sync message stream. -/
structure InitEnv where
  cmdStartOk : Bool
  managerApplyOk : Bool
  managerSetOk : Bool
  createChildOk : Bool
  devSubdirOk : Bool
  rdtApply1Ok : Bool
  copyBootstrapOk : Bool
  getChildPidOk : Bool
  getPipeFdsOk : Bool
  applyChildOk : Bool
  rdtApply2Ok : Bool
  writeCgByteOk : Bool
  waitChildExitOk : Bool
  createNetOk : Bool
  updateSpecOk : Bool
  sendConfigOk : Bool
  shutdownOk : Bool
  msgs : List SyncMsg
deriving DecidableEq, Repr

/-- Handler for `procReady` (sets rlimits; when no new mount namespace
is created, applies RDT and runs the prestart and CreateRuntime hooks;
stores state; replies `procRun`). -/
def handleProcReady (cfg : InitConfigM) (e : ProcReadyEnv) : List Event × Option String :=
  if e.rlimitsOk = false then ([], some "setting rlimits for ready process")
  else if !cfg.hasNewMountNs && cfg.rdtConfigured && !e.rdtSetOk then
    ([], some "setting Intel RDT config for ready process")
  else if !cfg.hasNewMountNs && cfg.hooksConfigured && !e.ociStateOk then
    ([], some "currentOCIState")
  else if !cfg.hasNewMountNs && cfg.hooksConfigured && !e.prestartOk then
    ([], some "running prestart hooks")
  else if !cfg.hasNewMountNs && cfg.hooksConfigured && !e.createRuntimeOk then
    ([], some "running CreateRuntime hooks")
  else if e.updateStateOk = false then ([], some "store init state")
  else if e.writeRunOk = false then ([], some "writing syncT run")
  else ([.runMsgEv], none)

/-- Handler for `rootfsReady` (on cgroup v2 creates and enters the child
cgroup, registers with sysbox-fs when enabled, replies
`rootfsReadyAck`). The register event records that the Register RPC was
issued. -/
def handleRootfsReady (cfg : InitConfigM) (e : RootfsReadyEnv) : List Event × Option String :=
  if cfg.cgType.isV2 && !e.createChildOk then
    ([], some "creating container child cgroup")
  else if cfg.cgType.isV2 && !e.applyChildOk then
    ([], some "applying cgroup configuration for process")
  else if cfg.sysFsEnabled then
    if e.registerOk = false then ([.registerEv], some "registering with sysbox-fs")
    else if e.writeAckOk = false then ([.registerEv], some "writing syncT rootfsReadyAck")
    else ([.registerEv], none)
  else if e.writeAckOk = false then ([], some "writing syncT rootfsReadyAck")
  else ([], none)

/-- Handler for `procHooks` (applies RDT, runs the prestart and
CreateRuntime hooks, replies `procResume`). -/
def handleProcHooks (cfg : InitConfigM) (e : ProcHooksEnv) : List Event × Option String :=
  if cfg.rdtConfigured && !e.rdtSetOk then
    ([], some "setting Intel RDT config for procHooks process")
  else if cfg.hooksConfigured && !e.ociStateOk then ([], some "currentOCIState")
  else if cfg.hooksConfigured && !e.prestartOk then ([], some "running prestart hooks")
  else if cfg.hooksConfigured && !e.createRuntimeOk then
    ([], some "running CreateRuntime hooks")
  else if e.writeResumeOk = false then ([], some "writing syncT resume")
  else ([.resumeMsgEv], none)

/-- Handler for `reqOp` (replies `sendOpInfo`, decodes the request list,
delegates to the container, replies `opDone`). -/
def handleReqOp (e : ReqOpEnv) : List Event × Option String :=
  if e.writeSendOpInfoOk = false then ([], some "writing syncT sendOpInfo")
  else if e.decodeOk = false then ([], some "receiving / decoding reqOp")
  else if e.handleOk = false then ([], some "handleReqOp")
  else if e.writeOpDoneOk = false then ([], some "writing syncT opDone")
  else ([], none)

/-- Handler for `procFd` (replies `sendFd`, receives the seccomp fd,
hands it to the container, replies `procFdDone`). -/
def handleProcFd (e : ProcFdEnv) : List Event × Option String :=
  if e.writeSendFdOk = false then ([], some "writing syncT sendFd")
  else if e.recvFdOk = false then ([], some "receiving seccomp fd")
  else if e.seccompInitOk = false then ([], some "processing seccomp fd")
  else if e.writeFdDoneOk = false then ([], some "writing syncT procFdDone")
  else ([], none)

/-- Dispatch one sync message. Any unrecognized message is a fatal
protocol error. -/
def handleMsg (cfg : InitConfigM) : SyncMsg → List Event × Option String
  | .procReady e => handleProcReady cfg e
  | .rootfsReady e => handleRootfsReady cfg e
  | .procHooks e => handleProcHooks cfg e
  | .reqOp e => handleReqOp e
  | .procFd e => handleProcFd e
  | .unknown => ([], some "invalid JSON payload from child")

/-- The sync loop: handle messages in order until the stream ends or a
handler fails; the first handler error becomes the loop error. -/
def runSyncLoop (cfg : InitConfigM) : List SyncMsg → List Event × Option String
  | [] => ([], none)
  | m :: rest =>
    let r := handleMsg cfg m
    match r.2 with
    | some e => (r.1, some e)
    | none =>
      let r2 := runSyncLoop cfg rest
      (r.1 ++ r2.1, r2.2)

/-- The actions of the deferred error rollback in `initProcess.start`:
terminate the bootstrapper (SIGKILL then wait), destroy the cgroup
allocation, destroy the Intel RDT allocation when configured. -/
def rollbackEvents (cfg : InitConfigM) : List Event :=
  [.killEv, .waitEv, .destroyCgroupEv] ++
    (if cfg.rdtConfigured then [.destroyRdtEv] else [])

/-- The error checks of the straight-line phase of `initProcess.start`
between the successful fork and the sync loop, in program order: each
pair is the failure condition of one step and the error it wraps. -/
def preLoopChecks (cfg : InitConfigM) (env : InitEnv) : List (Bool × String) :=
  [ (!env.managerApplyOk, "applying cgroup configuration for process"),
    (!env.managerSetOk, "setting cgroup config for ready process"),
    (cfg.cgType.isV1 && !env.createChildOk, "creating container child cgroup"),
    (!env.devSubdirOk, "setup up dev subdir under rootfs"),
    (cfg.rdtConfigured && !env.rdtApply1Ok, "applying Intel RDT configuration for process"),
    (!env.copyBootstrapOk, "copying bootstrap data to pipe"),
    (!env.getChildPidOk, "getting the final child pid from pipe"),
    (!env.getPipeFdsOk, "getting pipe fds for pid"),
    (cfg.cgType.isV1 && !env.applyChildOk, "applying cgroup configuration for process"),
    (cfg.rdtConfigured && !env.rdtApply2Ok, "applying Intel RDT configuration for process"),
    (cfg.hasCgroupNsNoPath && !env.writeCgByteOk,
      "sending synchronization value to init process"),
    (!env.waitChildExitOk, "waiting for our first child to exit"),
    (!env.createNetOk, "creating network interfaces"),
    (!env.updateSpecOk, "updating the spec state"),
    (!env.sendConfigOk, "sending config to init process") ]

/-- The straight-line phase of `initProcess.start` between the
successful fork and the sync loop; returns the error of the first
failing step. -/
def preLoopErr (cfg : InitConfigM) (env : InitEnv) : Option String :=
  ((preLoopChecks cfg env).find? (fun c => c.1)).map (fun c => c.2)

/-- `initProcess.start` after the fork succeeded, without the deferred
rollback: the straight-line phase, then the sync loop, then the
`sentRun` / `sentResume` checks, the socket shutdown and the surfacing
of the loop error. `sentRun` (resp. `sentResume`) is true exactly when
a `procRun` (resp. `procResume`) reply was written successfully, which
the trace records as `runMsgEv` (resp. `resumeMsgEv`). -/
def initStartBody (cfg : InitConfigM) (env : InitEnv) : List Event × Option String :=
  match preLoopErr cfg env with
  | some e => ([], some e)
  | none =>
    let r := runSyncLoop cfg env.msgs
    if Event.runMsgEv ∈ r.1 then
      if cfg.hasNewMountNs = true ∧ Event.resumeMsgEv ∉ r.1 then
        (r.1, some "could not synchronise after executing prestart and CreateRuntime hooks with container process")
      else if env.shutdownOk = false then (r.1, some "shutting down init pipe")
      else (r.1, r.2)
    else (r.1, some "container init")

/-- `initProcess.start`: on a fork failure the deferred rollback is not
yet registered; afterwards every error return triggers it. -/
def initStart (cfg : InitConfigM) (env : InitEnv) : List Event × Option String :=
  if env.cmdStartOk = false then ([], some "starting init process command")
  else
    let r := initStartBody cfg env
    match r.2 with
    | none => (r.1, none)
    | some e => (r.1 ++ rollbackEvents cfg, some e)

/-! ### Setns launch (`setnsProcess.start`) -/

/-- Outcomes of the calls made while handling `procFd` in a setns sync
loop. -/
structure SetnsFdEnv where
  writeSendFdOk : Bool
  recvFdOk : Bool
  seccompInitOk : Bool
  writeFdDoneOk : Bool
deriving DecidableEq, Repr

/-- Sync messages during a setns launch; `procReady`, `procHooks` and
`reqOp` are programming errors there (the Go handler panics). -/
inductive SetnsMsg where
  | procFd (e : SetnsFdEnv)
  | procReadyMsg
  | procHooksMsg
  | reqOpMsg
  | unknown
deriving DecidableEq, Repr

/-- Outcomes of every fallible step of `setnsProcess.start`. -/
structure SetnsEnv where
  cmdStartOk : Bool
  copyBootstrapOk : Bool
  execSetnsOk : Bool
  cgroupPathsNonempty : Bool
  rootlessCgroups : Bool
  enterPidErr : Option String  -- none = EnterPid succeeded; some = its error text
  isUnified : Bool             -- cgroups.IsCgroup2UnifiedMode()
  parseCgroupOk : Bool         -- ParseCgroupFile on the init process succeeded
  hasRootKey : Bool            -- the parsed cgroup map has the unified ("") key
  writeCgroupProcOk : Bool     -- WriteCgroupProc into the init cgroup dir
  rdtPathSet : Bool
  rdtStatExists : Bool
  writeRdtTasksOk : Bool
  rlimitsOk : Bool
  writeConfigOk : Bool
  shutdownOk : Bool
  msgs : List SetnsMsg
deriving DecidableEq, Repr

/-- The cgroup placement step of `setnsProcess.start`: `EnterPid`, and on
any error (with rootless cgroups the error is ignored) the cgroup v2
unified fallback of writing the pid into the init process's cgroup
directory; if no fallback applies or the fallback write fails, the
placement aborts the launch. -/
def setnsPlacement (env : SetnsEnv) : List Event × Option String :=
  if env.cgroupPathsNonempty = false then ([], none)
  else
    match env.enterPidErr with
    | none => ([], none)
    | some msg =>
      if env.rootlessCgroups then ([], none)
      else if env.isUnified && env.parseCgroupOk && env.hasRootKey then
        if env.writeCgroupProcOk then ([.fallbackWriteEv], none)
        else ([.fallbackWriteEv], some "adding pid to cgroups: write cgroup procs failed")
      else ([], some ("adding pid to cgroups: " ++ msg))

/-- Handler of one setns sync message. -/
def handleSetnsMsg : SetnsMsg → GoResult Unit
  | .procFd e =>
    if e.writeSendFdOk = false then .err "writing syncT sendFd"
    else if e.recvFdOk = false then .err "receiving seccomp fd"
    else if e.seccompInitOk = false then .err "processing seccomp fd"
    else if e.writeFdDoneOk = false then .err "writing syncT procFdDone"
    else .ok ()
  | .procReadyMsg => .panicked "unexpected procReady in setns"
  | .procHooksMsg => .panicked "unexpected procHooks in setns"
  | .reqOpMsg => .panicked "unexpected reqOp in setns"
  | .unknown => .err "invalid JSON payload from child"

/-- The setns sync loop. -/
def runSetnsLoop : List SetnsMsg → GoResult Unit
  | [] => .ok ()
  | m :: rest =>
    match handleSetnsMsg m with
    | .ok _ => runSetnsLoop rest
    | .err e => .err e
    | .panicked e => .panicked e

/-- `setnsProcess.start` after the fork succeeded, without the deferred
terminate: bootstrap copy, setns exec, cgroup placement, Intel RDT,
rlimits, config write, sync loop, shutdown, loop error surfacing. A
panic unwinds before the shutdown. -/
def setnsBody (env : SetnsEnv) : List Event × GoResult Unit :=
  if env.copyBootstrapOk = false then ([], .err "copying bootstrap data to pipe")
  else if env.execSetnsOk = false then ([], .err "executing setns process")
  else
    match setnsPlacement env with
    | (evs, some e) => (evs, .err e)
    | (evs, none) =>
      if env.rdtPathSet && env.rdtStatExists && !env.writeRdtTasksOk then
        (evs, .err "adding pid to Intel RDT resource control filesystem")
      else if env.rlimitsOk = false then (evs, .err "setting rlimits for process")
      else if env.writeConfigOk = false then (evs, .err "writing config to pipe")
      else
        match runSetnsLoop env.msgs with
        | .panicked m => (evs, .panicked m)
        | ierr =>
          if env.shutdownOk = false then (evs, .err "calling shutdown on init pipe")
          else
            match ierr with
            | .err e => (evs, .err e)
            | _ => (evs, .ok ())

/-- `setnsProcess.start`: every error return after the fork triggers the
deferred terminate (SIGKILL then wait); a Go panic unwinds with a nil
`retErr`, so the terminate is not performed on the panic path. -/
def setnsStart (env : SetnsEnv) : List Event × GoResult Unit :=
  if env.cmdStartOk = false then ([], .err "starting setns process")
  else
    match setnsBody env with
    | (evs, .ok _) => (evs, .ok ())
    | (evs, .err e) => (evs ++ [.killEv, .waitEv], .err e)
    | (evs, .panicked m) => (evs, .panicked m)

/-- A plain init-launch configuration for concrete runs. -/
def plainCfg : InitConfigM :=
  { hasNewMountNs := false, hasCgroupNsNoPath := false, hooksConfigured := false,
    rdtConfigured := true, sysFsEnabled := true, cgType := .v1fs }

/-- An init-launch environment in which every step succeeds, carrying
the given message stream. -/
def allOkEnv (msgs : List SyncMsg) : InitEnv :=
  { cmdStartOk := true, managerApplyOk := true, managerSetOk := true,
    createChildOk := true, devSubdirOk := true, rdtApply1Ok := true,
    copyBootstrapOk := true, getChildPidOk := true, getPipeFdsOk := true,
    applyChildOk := true, rdtApply2Ok := true, writeCgByteOk := true,
    waitChildExitOk := true, createNetOk := true, updateSpecOk := true,
    sendConfigOk := true, shutdownOk := true, msgs := msgs }

/-- The C7 witness environment: everything succeeds up to `sendConfig`,
which fails. -/
def c7Env : InitEnv :=
  { allOkEnv [] with sendConfigOk := false }

/-- A `procReady` handler environment in which every call succeeds. -/
def procReadyAllOk : ProcReadyEnv :=
  { rlimitsOk := true, rdtSetOk := true, ociStateOk := true, prestartOk := true,
    createRuntimeOk := true, updateStateOk := true, writeRunOk := true }

/-- The C9 environment: EnterPid fails with EPERM (not EBUSY) under
cgroup v2 unified mode, and the fallback write succeeds. -/
def c9Env : SetnsEnv :=
  { cmdStartOk := true, copyBootstrapOk := true, execSetnsOk := true,
    cgroupPathsNonempty := true, rootlessCgroups := false,
    enterPidErr := some "operation not permitted", isUnified := true,
    parseCgroupOk := true, hasRootKey := true, writeCgroupProcOk := true,
    rdtPathSet := false, rdtStatExists := false, writeRdtTasksOk := true,
    rlimitsOk := true, writeConfigOk := true, shutdownOk := true, msgs := [] }

end Orchestrator

/-! # Theorems -/

namespace Syscont

/-! ## Shared list lemmas -/

theorem mem_stringSliceRemove {x : String} {s t : List String} :
    x ∈ stringSliceRemove s t ↔ x ∈ s ∧ x ∉ t := by
  simp [stringSliceRemove]

theorem mem_mountSliceRemove {m : Mount} {s t : List Mount} {p : Mount → Mount → Bool} :
    m ∈ mountSliceRemove s t p ↔ m ∈ s ∧ ∀ m2 ∈ t, p m m2 = false := by
  simp [mountSliceRemove, List.mem_filter, List.any_eq_false]

theorem insertMount_perm (m : Mount) (l : List Mount) :
    (insertMount m l).Perm (m :: l) := by
  induction l with
  | nil => exact List.Perm.refl _
  | cons x xs ih =>
    unfold insertMount
    split
    · exact List.Perm.refl _
    · exact ((ih.cons x).trans (List.Perm.swap m x xs))

theorem sortMountList_perm (l : List Mount) : (sortMountList l).Perm l := by
  induction l with
  | nil => exact List.Perm.refl _
  | cons x xs ih => exact (insertMount_perm x (sortMountList xs)).trans (ih.cons x)

theorem mem_sortMountList {m : Mount} {l : List Mount} :
    m ∈ sortMountList l ↔ m ∈ l :=
  (sortMountList_perm l).mem_iff

/-- Membership in the per-action name sets built by `cfgSeccomp`. -/
theorem mem_actionNames {n : String} {a : SeccompAction} {l : List LinuxSyscall} :
    n ∈ actionNames a l ↔ ∃ sc, sc ∈ l ∧ sc.action = a ∧ n ∈ sc.names := by
  induction l with
  | nil => simp [actionNames]
  | cons sc rest ih =>
    unfold actionNames
    by_cases h : sc.action = a
    · rw [if_pos h]
      simp only [List.mem_append, ih]
      constructor
      · rintro (hn | ⟨sc2, h2, h3, h4⟩)
        · exact ⟨sc, List.mem_cons_self sc rest, h, hn⟩
        · exact ⟨sc2, List.mem_cons_of_mem sc h2, h3, h4⟩
      · rintro ⟨sc2, h2, h3, h4⟩
        rcases List.mem_cons.mp h2 with heq | h2
        · subst heq; exact Or.inl h4
        · exact Or.inr ⟨sc2, h2, h3, h4⟩
    · rw [if_neg h, ih]
      constructor
      · rintro ⟨sc2, h2, h3, h4⟩
        exact ⟨sc2, List.mem_cons_of_mem sc h2, h3, h4⟩
      · rintro ⟨sc2, h2, h3, h4⟩
        rcases List.mem_cons.mp h2 with heq | h2
        · subst heq; exact absurd h3 h
        · exact ⟨sc2, h2, h3, h4⟩

/-! ## C1: seccomp blacklist handling of whitelisted syscalls -/

/-- C1: the claim states that for a blacklist-mode x86-64 profile the
conversion removes `(ErrnoSet ∪ KillSet) ∩ W` from the syscall entries,
so that no name of the whitelist `W` remains under an errno or kill
action. The code instead computes the diff set as
`(ErrnoSet ∪ KillSet) \ W` (`disallowSet.Difference(syscontAllowSet)`),
so a whitelisted blacklisted syscall is never in the diff set and
survives conversion unchanged: on the failing input the profile with
`mount` (a member of `W`) under errno is returned verbatim. -/
theorem seccomp_blacklist_whitelisted_mount_survives :
    cfgSeccomp (some c1Profile) = GoResult.ok (some c1Profile) ∧
    "mount" ∈ syscontSyscallWhitelist ∧
    (∃ sc, sc ∈ c1Profile.syscalls ∧ sc.action = SeccompAction.actErrno ∧
      "mount" ∈ sc.names) := by
  decide

/-! ## C3: seccomp whitelist closure -/

/-- C3: for every seccomp profile that includes the x86-64 architecture
and has default action errno or kill, conversion succeeds, the
post-conversion set of names under action allow contains the whole
whitelist (one entry per missing name is appended with action allow),
and every syscall entry containing a name outside the
restrictions-allowed list has its argument restrictions cleared.
Parametric in the whitelist and restrictions-allowed list, which are
package globals whose contents are not among the provided sources. -/
theorem cfgSeccomp_whitelist_closure (wl restr : List String) (s : LinuxSeccomp)
    (harch : archX86_64 ∈ s.architectures)
    (hda : s.defaultAction = SeccompAction.actErrno ∨
      s.defaultAction = SeccompAction.actKill) :
    ∃ s2, cfgSeccompWith wl restr (some s) = GoResult.ok (some s2) ∧
      (∀ w ∈ wl, w ∈ actionNames SeccompAction.actAllow s2.syscalls) ∧
      (∀ sc ∈ s2.syscalls, (∃ n, n ∈ sc.names ∧ n ∉ restr) → sc.args = []) := by
  have hda3 : ¬ (s.defaultAction ≠ SeccompAction.actAllow ∧
      s.defaultAction ≠ SeccompAction.actErrno ∧ s.defaultAction ≠ SeccompAction.actKill) := by
    rcases hda with h | h <;> simp [h]
  have hres : cfgSeccompWith wl restr (some s) =
      GoResult.ok (some (seccompWhitelistBranch wl restr s)) := by
    simp only [cfgSeccompWith]
    rw [if_neg (by simp [harch]), if_neg hda3, if_pos hda]
  have hstripNames : ∀ sc : LinuxSyscall, (stripArgsIfRestricted restr sc).names = sc.names := by
    intro sc
    unfold stripArgsIfRestricted
    split <;> rfl
  have hstripAction : ∀ sc : LinuxSyscall,
      (stripArgsIfRestricted restr sc).action = sc.action := by
    intro sc
    unfold stripArgsIfRestricted
    split <;> rfl
  refine ⟨seccompWhitelistBranch wl restr s, hres, ?_, ?_⟩
  · intro w hw
    rw [mem_actionNames]
    by_cases hall : w ∈ actionNames SeccompAction.actAllow s.syscalls
    · rcases mem_actionNames.mp hall with ⟨sc, hsc, hact, hn⟩
      refine ⟨stripArgsIfRestricted restr sc, ?_, ?_, ?_⟩
      · exact List.mem_map.mpr ⟨sc, List.mem_append_left _ hsc, rfl⟩
      · rw [hstripAction, hact]
      · rw [hstripNames]; exact hn
    · -- the appended entry for w
      have hwdiff : w ∈ wl.filter (fun n =>
          decide (n ∉ actionNames SeccompAction.actAllow s.syscalls)) := by
        simp only [List.mem_filter, decide_eq_true_eq]
        exact ⟨hw, hall⟩
      have hmem : ({ names := [w], action := SeccompAction.actAllow, args := [] } :
          LinuxSyscall) ∈ s.syscalls ++ seccompWhitelistAdds wl s :=
        List.mem_append_right _ (List.mem_map.mpr ⟨w, hwdiff, rfl⟩)
      refine ⟨stripArgsIfRestricted restr
        { names := [w], action := SeccompAction.actAllow, args := [] }, ?_, ?_, ?_⟩
      · exact List.mem_map.mpr ⟨_, hmem, rfl⟩
      · rw [hstripAction]
      · rw [hstripNames]; exact List.mem_singleton.mpr rfl
  · intro sc hsc hn
    rcases List.mem_map.mp hsc with ⟨sc0, _, heq⟩
    unfold stripArgsIfRestricted at heq
    by_cases hstrip : sc0.names.any (fun n => !(restr.contains n)) = true
    · rw [if_pos hstrip] at heq
      rw [← heq]
    · rw [if_neg hstrip] at heq
      subst heq
      rcases hn with ⟨n, hn1, hn2⟩
      exfalso
      have hfalse : sc0.names.any (fun n => !(restr.contains n)) = false :=
        eq_false_of_ne_true hstrip
      have := List.any_eq_false.mp hfalse n hn1
      have hcont : restr.contains n = true := by simpa using this
      exact hn2 (List.mem_of_elem_eq_true hcont)

/-! ## C4: ID-mapping validation -/

theorem mergeIDMappings_nil :
    mergeIDMappings [] = GoResult.err "ID mappings do not reduce to one continuous range" :=
  rfl

/-- Characterization of a successful `validateIDMappings`. -/
theorem validateIDMappingsL_ok_iff {uids gids : List LinuxIDMapping}
    {um gm : LinuxIDMapping} :
    validateIDMappingsL uids gids = GoResult.ok (um, gm) ↔
      (mergeIDMappings uids = GoResult.ok um ∧ mergeIDMappings gids = GoResult.ok gm ∧
       um.containerID = 0 ∧ idRangeMin ≤ um.size ∧ gm.containerID = 0 ∧
       idRangeMin ≤ gm.size ∧ um.hostID = gm.hostID ∧ um.hostID ≠ 0) := by
  constructor
  · intro h
    unfold validateIDMappingsL at h
    by_cases hne : uids = [] ∨ gids = []
    · rw [if_pos hne] at h
      exact absurd h (by simp)
    · rw [if_neg hne] at h
      split at h
      rotate_left
      · exact absurd h (by simp)
      · exact absurd h (by simp)
      rename_i um2 hu2
      split at h
      rotate_left
      · exact absurd h (by simp)
      · exact absurd h (by simp)
      rename_i gm2 hg2
      split_ifs at h with h1 h2 h3 h4 h5
      have hpair : um2 = um ∧ gm2 = gm := by
        have hinj := h
        simp only [GoResult.ok.injEq, Prod.mk.injEq] at hinj
        exact hinj
      obtain ⟨he1, he2⟩ := hpair
      subst he1
      subst he2
      push_neg at h1 h2 h3
      exact ⟨hu2, hg2, h1.1, h1.2, h2.1, h2.2, h3, h4⟩
  · rintro ⟨hu, hg, h1, h2, h3, h4, h5, h6⟩
    have hune : ¬ (uids = [] ∨ gids = []) := by
      rintro (he | he)
      · rw [he, mergeIDMappings_nil] at hu; exact absurd hu (by simp)
      · rw [he, mergeIDMappings_nil] at hg; exact absurd hg (by simp)
    unfold validateIDMappingsL
    rw [if_neg hune]
    simp only [hu, hg]
    rw [if_neg (by push_neg; omega), if_neg (by push_neg; omega),
        if_neg (by simp [h5]), if_neg h6, if_neg (by rw [← h5]; exact h6)]

/-- C4: when the spec provides at least one UID or GID mapping and no
manager override applies, `cfgIDMappings` succeeds iff each mapping
list merges (after folding contiguous sub-ranges) to exactly one range
starting at container ID 0 with size at least 65536, the uid and gid
host IDs match, and that host ID is non-zero; in particular a merged
mapping landing at host ID 0 is always rejected. -/
theorem cfgIDMappings_validation_iff (mgr : MgrConfig) (uids gids : List LinuxIDMapping)
    (hmgr : mgr.enabled = false) (hne : ¬ (uids = [] ∧ gids = [])) :
    ((∃ r, cfgIDMappingsL mgr uids gids = GoResult.ok r) ↔
      (∃ um gm, mergeIDMappings uids = GoResult.ok um ∧
        mergeIDMappings gids = GoResult.ok gm ∧
        um.containerID = 0 ∧ idRangeMin ≤ um.size ∧ gm.containerID = 0 ∧
        idRangeMin ≤ gm.size ∧ um.hostID = gm.hostID ∧ um.hostID ≠ 0)) ∧
    (∀ um gm, mergeIDMappings uids = GoResult.ok um →
      mergeIDMappings gids = GoResult.ok gm → um.hostID = 0 ∨ gm.hostID = 0 →
      ¬ ∃ r, cfgIDMappingsL mgr uids gids = GoResult.ok r) := by
  have hred : cfgIDMappingsL mgr uids gids =
      (match validateIDMappingsL uids gids with
       | .ok (um, gm) => GoResult.ok ([um], [gm])
       | .err m => GoResult.err m
       | .panicked m => GoResult.panicked m) := by
    unfold cfgIDMappingsL
    simp [hmgr, hne]
  have hmain : (∃ r, cfgIDMappingsL mgr uids gids = GoResult.ok r) ↔
      (∃ um gm, mergeIDMappings uids = GoResult.ok um ∧
        mergeIDMappings gids = GoResult.ok gm ∧
        um.containerID = 0 ∧ idRangeMin ≤ um.size ∧ gm.containerID = 0 ∧
        idRangeMin ≤ gm.size ∧ um.hostID = gm.hostID ∧ um.hostID ≠ 0) := by
    rw [hred]
    constructor
    · rintro ⟨r, hr⟩
      cases hv : validateIDMappingsL uids gids with
      | err m => rw [hv] at hr; exact absurd hr (by simp)
      | panicked m => rw [hv] at hr; exact absurd hr (by simp)
      | ok p =>
        obtain ⟨um, gm⟩ := p
        have := validateIDMappingsL_ok_iff.mp hv
        exact ⟨um, gm, this⟩
    · rintro ⟨um, gm, hprops⟩
      have hv : validateIDMappingsL uids gids = GoResult.ok (um, gm) :=
        validateIDMappingsL_ok_iff.mpr hprops
      exact ⟨([um], [gm]), by rw [hv]⟩
  refine ⟨hmain, ?_⟩
  rintro um gm hu hg hzero ⟨r, hr⟩
  rcases hmain.mp ⟨r, hr⟩ with ⟨um2, gm2, hu2, hg2, _, _, _, _, heq, hnz⟩
  rw [hu] at hu2
  rw [hg] at hg2
  have hum : um = um2 := by simpa using hu2
  have hgm : gm = gm2 := by simpa using hg2
  subst hum
  subst hgm
  rcases hzero with h0 | h0
  · exact hnz h0
  · exact hnz (heq.trans h0)

/-- Witness for C4: two contiguous uid sub-ranges merging to a single
range of 70000 ids at host ID 100000 validate successfully. -/
theorem cfgIDMappings_validation_iff_witness :
    (mgrDisabled.enabled = false ∧
      ¬ (([⟨0, 100000, 40000⟩, ⟨40000, 140000, 30000⟩] : List LinuxIDMapping) = [] ∧
         ([⟨0, 100000, 70000⟩] : List LinuxIDMapping) = [])) ∧
    ∃ r, cfgIDMappingsL mgrDisabled
      [⟨0, 100000, 40000⟩, ⟨40000, 140000, 30000⟩] [⟨0, 100000, 70000⟩] =
      GoResult.ok r :=
  ⟨⟨rfl, by decide⟩,
    ((cfgIDMappings_validation_iff mgrDisabled
      [⟨0, 100000, 40000⟩, ⟨40000, 140000, 30000⟩] [⟨0, 100000, 70000⟩]
      rfl (by decide)).1).mpr
      ⟨⟨0, 100000, 70000⟩, ⟨0, 100000, 70000⟩, by decide, by decide, by decide,
        by decide, by decide, by decide, by decide, by decide⟩⟩

/-! ## C6: host network namespace rejection -/

/-- When the spec has exactly one network namespace entry, `checkSpec`
inspects exactly that entry (provided its path is non-empty). -/
theorem find_network_entry {l : List LinuxNamespaceE} {ns : LinuxNamespaceE}
    (hfil : l.filter (fun n => decide (n.nstype = NsType.network)) = [ns])
    (hpath : ns.path ≠ "") :
    l.find? (fun n => decide (n.nstype = NsType.network ∧ n.path ≠ "")) = some ns := by
  induction l with
  | nil => simp at hfil
  | cons x xs ih =>
    by_cases hx : x.nstype = NsType.network
    · rw [List.filter_cons_of_pos (by simp [hx])] at hfil
      have hxeq : x = ns ∧ xs.filter (fun n => decide (n.nstype = NsType.network)) = [] := by
        constructor
        · exact (List.cons_eq_cons.mp hfil).1
        · exact (List.cons_eq_cons.mp hfil).2
      rw [List.find?_cons_of_pos]
      · rw [hxeq.1]
      · simp only [decide_eq_true_eq]
        exact ⟨hx, hxeq.1 ▸ hpath⟩
    · rw [List.filter_cons_of_neg (by simp [hx])] at hfil
      rw [List.find?_cons_of_neg]
      · exact ih hfil
      · simp only [decide_eq_true_eq, not_and]
        intro hc
        exact absurd hc hx

/-- C6: for a spec whose (unique, per the data model) network namespace
entry has a non-empty path, conversion fails when the stat (device and
inode) of that path equals the one of the runtime's own
`/proc/self/ns/net`, and the check passes when the stats differ. -/
theorem checkSpec_host_netns_rejection (env : ConvEnv) (spec : Spec)
    (ns : LinuxNamespaceE) (st1 st2 : Nat × Nat)
    (hfil : spec.linux.namespaces.filter (fun n => decide (n.nstype = NsType.network)) =
      [ns])
    (hpath : ns.path ≠ "")
    (hself : env.selfNetNs = GoResult.ok st1)
    (hstat : env.statPath ns.path = GoResult.ok st2) :
    (st1.1 = st2.1 ∧ st1.2 = st2.2 → ∃ m, ConvertSpec env spec = GoResult.err m) ∧
    (st1.1 ≠ st2.1 ∨ st1.2 ≠ st2.2 → checkSpec env spec = GoResult.ok ()) := by
  have hfind := find_network_entry hfil hpath
  constructor
  · intro heq
    have hcheck : checkSpec env spec =
        GoResult.err "sysbox containers cannot share a network namespace with the host" := by
      unfold checkSpec
      simp only [hfind, hself, hstat]
      rw [if_pos heq]
    refine ⟨"invalid or unsupported container spec: " ++
      "sysbox containers cannot share a network namespace with the host", ?_⟩
    unfold ConvertSpec
    rw [hcheck]
  · intro hne
    unfold checkSpec
    simp only [hfind, hself, hstat]
    rw [if_neg (by tauto)]

/-- Witness for C6 at a concrete spec and stat environment. -/
theorem checkSpec_host_netns_rejection_witness :
    ∃ m, ConvertSpec c6Env c6Spec = GoResult.err m :=
  (checkSpec_host_netns_rejection c6Env c6Spec ⟨NsType.network, "/proc/1/ns/net"⟩
    (4, 4026531992) (4, 4026531992) (by decide) (by decide) rfl rfl).1 ⟨rfl, rfl⟩

/-! ## Pipeline-stage characterizations (used by C2 and C5) -/

theorem cfgCapabilities_args (p : ProcessE) : (cfgCapabilities p).args = p.args := by
  unfold cfgCapabilities
  split <;> rfl

theorem cfgOomScoreAdj_linux (t : Spec) : (cfgOomScoreAdj t).linux = t.linux := by
  unfold cfgOomScoreAdj
  split
  · split <;> rfl
  · rfl

theorem cfgOomScoreAdj_root (t : Spec) : (cfgOomScoreAdj t).root = t.root := by
  unfold cfgOomScoreAdj
  split
  · split <;> rfl
  · rfl

theorem cfgOomScoreAdj_mounts (t : Spec) : (cfgOomScoreAdj t).mounts = t.mounts := by
  unfold cfgOomScoreAdj
  split
  · split <;> rfl
  · rfl

theorem cfgOomScoreAdj_args (t : Spec) :
    (cfgOomScoreAdj t).process.args = t.process.args := by
  unfold cfgOomScoreAdj
  split
  · split <;> rfl
  · rfl

theorem ConvertProcessSpec_ok_args {p q : ProcessE}
    (h : ConvertProcessSpec p = GoResult.ok q) : q.args = p.args := by
  simp only [ConvertProcessSpec] at h
  split at h
  · rename_i b hb
    have hq : q = if b then cfgSystemdEnv (cfgAppArmor (cfgCapabilities p))
        else cfgAppArmor (cfgCapabilities p) := by
      simpa using h.symm
    subst hq
    cases b
    · simpa using cfgCapabilities_args p
    · simpa [cfgSystemdEnv] using cfgCapabilities_args p
  · exact GoResult.noConfusion h
  · exact GoResult.noConfusion h

theorem cfgMaskedPaths_ok {t u : Spec} (h : cfgMaskedPaths t = GoResult.ok u) :
    ∃ bs : Bool, systemdInit t.process = GoResult.ok bs ∧
      u = { t with linux := { t.linux with maskedPaths := maskedAfter t bs } } := by
  unfold cfgMaskedPaths at h
  split at h
  · rename_i b hb
    refine ⟨b, hb, ?_⟩
    simpa using h.symm
  · exact GoResult.noConfusion h
  · exact GoResult.noConfusion h

theorem cfgReadonlyPaths_ok {t u : Spec} (h : cfgReadonlyPaths t = GoResult.ok u) :
    ∃ bs : Bool, systemdInit t.process = GoResult.ok bs ∧
      u = { t with linux := { t.linux with readonlyPaths := readonlyAfter t bs } } := by
  unfold cfgReadonlyPaths at h
  split at h
  · rename_i b hb
    refine ⟨b, hb, ?_⟩
    simpa using h.symm
  · exact GoResult.noConfusion h
  · exact GoResult.noConfusion h

/-- Decomposition of a successful `convertTail`: the three fallible
stages it chains, and how the final spec's fields relate to the output
of the read-only path stage. -/
theorem convertTail_ok_fields {env : ConvEnv} {t s : Spec}
    (h : convertTail env t = GoResult.ok s) :
    ∃ u v w, cfgMounts env t = GoResult.ok u ∧ cfgMaskedPaths u = GoResult.ok v ∧
      cfgReadonlyPaths v = GoResult.ok w ∧
      s.mounts = w.mounts ∧ s.linux.maskedPaths = w.linux.maskedPaths ∧
      s.linux.readonlyPaths = w.linux.readonlyPaths ∧
      s.process.args = w.process.args ∧ s.root = w.root := by
  unfold convertTail at h
  split at h
  · exact GoResult.noConfusion h
  · exact GoResult.noConfusion h
  rename_i u hu
  split at h
  · exact GoResult.noConfusion h
  · exact GoResult.noConfusion h
  rename_i v hv
  split at h
  · exact GoResult.noConfusion h
  · exact GoResult.noConfusion h
  rename_i w hw
  split at h
  · exact GoResult.noConfusion h
  · exact GoResult.noConfusion h
  rename_i sec hsec
  split at h
  · exact GoResult.noConfusion h
  · exact GoResult.noConfusion h
  rename_i p hp
  have hs : s = { cfgOomScoreAdj w with
      linux := { (cfgOomScoreAdj w).linux with seccomp := sec }, process := p } := by
    simpa using h.symm
  refine ⟨u, v, w, hu, hv, hw, ?_, ?_, ?_, ?_, ?_⟩
  · rw [hs]
    exact cfgOomScoreAdj_mounts w
  · rw [hs]
    show (cfgOomScoreAdj w).linux.maskedPaths = w.linux.maskedPaths
    rw [cfgOomScoreAdj_linux]
  · rw [hs]
    show (cfgOomScoreAdj w).linux.readonlyPaths = w.linux.readonlyPaths
    rw [cfgOomScoreAdj_linux]
  · rw [hs]
    show p.args = w.process.args
    have := ConvertProcessSpec_ok_args hp
    rw [this]
    exact cfgOomScoreAdj_args w
  · rw [hs]
    exact cfgOomScoreAdj_root w

theorem cfgNamespaces_ok {mgr : MgrConfig} {spec t : Spec}
    (h : cfgNamespaces mgr spec = GoResult.ok t) :
    t.root = spec.root ∧ t.process = spec.process ∧ t.mounts = spec.mounts ∧
    t.linux.maskedPaths = spec.linux.maskedPaths ∧
    t.linux.readonlyPaths = spec.linux.readonlyPaths ∧
    t.linux.seccomp = spec.linux.seccomp := by
  unfold cfgNamespaces at h
  split_ifs at h
  have ht := h
  simp only [GoResult.ok.injEq] at ht
  rw [← ht]
  exact ⟨rfl, rfl, rfl, rfl, rfl, rfl⟩

theorem cfgIDMappings_ok {mgr : MgrConfig} {spec t : Spec}
    (h : cfgIDMappings mgr spec = GoResult.ok t) :
    t.root = spec.root ∧ t.process = spec.process ∧ t.mounts = spec.mounts ∧
    t.linux.maskedPaths = spec.linux.maskedPaths ∧
    t.linux.readonlyPaths = spec.linux.readonlyPaths ∧
    t.linux.seccomp = spec.linux.seccomp := by
  unfold cfgIDMappings at h
  split at h
  rotate_left
  · exact GoResult.noConfusion h
  · exact GoResult.noConfusion h
  have ht := h
  simp only [GoResult.ok.injEq] at ht
  rw [← ht]
  exact ⟨rfl, rfl, rfl, rfl, rfl, rfl⟩

/-- Decomposition of a successful `ConvertSpec` down to `convertTail`:
the spec handed to the tail agrees with the input spec on every field
the head stages do not touch. -/
theorem ConvertSpec_ok_elim {env : ConvEnv} {spec s : Spec} {a b : Bool}
    (h : ConvertSpec env spec = GoResult.ok (s, a, b)) :
    ∃ t, convertTail env t = GoResult.ok s ∧ t.root = spec.root ∧
      t.process = spec.process ∧ t.mounts = spec.mounts ∧
      t.linux.maskedPaths = spec.linux.maskedPaths ∧
      t.linux.readonlyPaths = spec.linux.readonlyPaths ∧
      t.linux.seccomp = spec.linux.seccomp := by
  unfold ConvertSpec at h
  split at h
  · exact GoResult.noConfusion h
  · exact GoResult.noConfusion h
  split at h
  · exact GoResult.noConfusion h
  · exact GoResult.noConfusion h
  rename_i t1 h1
  split at h
  · exact GoResult.noConfusion h
  · exact GoResult.noConfusion h
  rename_i t2 h2
  split at h
  · exact GoResult.noConfusion h
  · exact GoResult.noConfusion h
  split at h
  · exact GoResult.noConfusion h
  · exact GoResult.noConfusion h
  rename_i t3 h3
  have hs3 := h
  simp only [GoResult.ok.injEq, Prod.mk.injEq] at hs3
  obtain ⟨hs, -, -⟩ := hs3
  subst hs
  obtain ⟨e1, e2, e3, e4, e5, e6⟩ := cfgNamespaces_ok h1
  obtain ⟨f1, f2, f3, f4, f5, f6⟩ := cfgIDMappings_ok h2
  exact ⟨t2, h3, f1.trans e1, f2.trans e2, f3.trans e3, f4.trans e4, f5.trans e5,
    f6.trans e6⟩

/-! ## Mount read-only invariant (C2) -/

theorem roOptions_facts (opts : List String) :
    "ro" ∈ stringSliceRemove opts ["rw"] ++ ["ro"] ∧
    "rw" ∉ stringSliceRemove opts ["rw"] ++ ["ro"] := by
  constructor
  · exact List.mem_append_right _ (List.mem_singleton.mpr rfl)
  · intro hmem
    rcases List.mem_append.mp hmem with hm | hm
    · exact (mem_stringSliceRemove.mp hm).2 (by decide)
    · exact absurd hm (by decide)

theorem mountBase_root (env : ConvEnv) (t : Spec) : (mountBase env t).root = t.root := by
  unfold mountBase
  split <;> rfl

theorem mountBase_process (env : ConvEnv) (t : Spec) :
    (mountBase env t).process = t.process := by
  unfold mountBase
  split <;> rfl

/-- Establishment of the invariant after the sysbox and sysbox-fs mount
stages of a read-only-rootfs conversion with sysbox-fs enabled. -/
theorem mountRoInv_base (env : ConvEnv) (t : Spec) (hro : t.root.readonly = true)
    (hfs : env.fs.enabled = true) : MountRoInv (mountBase env t) := by
  have dSysRo : ∀ m ∈ sysboxMountsRo, m.destination ∈ sysSysDests →
      "ro" ∈ m.options ∧ "rw" ∉ m.options := by decide
  have dSysboxDest : ∀ d ∈ sysSysDests, ∃ m2, m2 ∈ sysboxMounts ∧ m2.destination = d := by
    decide
  have dFsNotSys : ∀ m ∈ sysboxFsMounts, m.destination ∉ sysSysDests := by decide
  have dFsD : ∀ d ∈ fsDests, ∃ m0, m0 ∈ sysboxFsMounts ∧ m0.destination = d := by decide
  have dFsNoRo : ∀ m ∈ sysboxFsMounts, "ro" ∉ m.options := by decide
  have dFsTable : ∀ d ∈ fsDests, ∃ m2, m2 ∈ sysboxFsMounts ∧ m2.destination = d := dFsD
  have hb : mountBase env t = cfgSysboxFsMounts env.fs (cfgSysboxMounts t) := by
    unfold mountBase
    rw [if_pos hfs]
  have ht1mounts : (cfgSysboxMounts t).mounts =
      mountSliceRemove
        (mountSliceRemove t.mounts cgroupGuardMounts
          (fun m1 m2 => strHasPrefix m2.destination m1.destination))
        sysboxMounts (fun m1 m2 => decide (m1.destination = m2.destination)) ++
      sysboxMountsRo := by
    show cfgSysboxMountsList t = _
    unfold cfgSysboxMountsList
    rw [if_pos hro]
  have ht2mounts : (cfgSysboxFsMounts env.fs (cfgSysboxMounts t)).mounts =
      mountSliceRemove (cfgSysboxMounts t).mounts sysboxFsMounts
        (fun m1 m2 => decide (m1.destination = m2.destination)) ++
      sysboxFsMountsFor env.fs := rfl
  have ht2ro : (cfgSysboxFsMounts env.fs (cfgSysboxMounts t)).linux.readonlyPaths =
      (cfgSysboxMounts t).linux.readonlyPaths ++ fsDests := by
    show cfgSysboxFsRoPaths (cfgSysboxMounts t) = _
    unfold cfgSysboxFsRoPaths
    rw [if_pos (show (cfgSysboxMounts t).root.readonly = true from hro)]
  rw [hb]
  constructor
  · intro m hm hdest
    rw [ht2mounts] at hm
    rcases List.mem_append.mp hm with hm | hm
    · have hsub := mem_mountSliceRemove.mp hm
      rw [ht1mounts] at hsub
      rcases List.mem_append.mp hsub.1 with hmm | hmm
      · exfalso
        obtain ⟨m2, hm2, hm2d⟩ := dSysboxDest m.destination hdest
        have hpred := (mem_mountSliceRemove.mp hmm).2 m2 hm2
        rw [decide_eq_false_iff_not] at hpred
        exact hpred hm2d.symm
      · exact dSysRo m hmm hdest
    · exfalso
      rcases List.mem_map.mp hm with ⟨m0, hm0, hms⟩
      have hd : m.destination = m0.destination := by rw [← hms]; rfl
      exact dFsNotSys m0 hm0 (hd ▸ hdest)
  · intro d hd
    obtain ⟨m0, hm0, hm0d⟩ := dFsD d hd
    refine ⟨substFsSource env.fs m0, ?_, ?_⟩
    · rw [ht2mounts]
      exact List.mem_append_right _ (List.mem_map.mpr ⟨m0, hm0, rfl⟩)
    · exact hm0d
  · intro m hm hdest
    rw [ht2mounts] at hm
    rcases List.mem_append.mp hm with hm | hm
    · exfalso
      obtain ⟨m2, hm2, hm2d⟩ := dFsTable m.destination hdest
      have hpred := (mem_mountSliceRemove.mp hm).2 m2 hm2
      rw [decide_eq_false_iff_not] at hpred
      exact hpred hm2d.symm
    · rcases List.mem_map.mp hm with ⟨m0, hm0, hms⟩
      have hopts : m.options = m0.options := by rw [← hms]; rfl
      rw [hopts]
      exact dFsNoRo m0 hm0
  · intro d hd
    rw [ht2ro]
    exact List.mem_append_right _ hd

/-- Characterization of a successful `sysMgrSetupMounts`: the manager
step only appends mounts, and every appended mount avoids existing
destinations and is marked read-only under a read-only rootfs. -/
theorem sysMgrSetupMounts_ok_elim {env : ConvEnv} {t u : Spec}
    (h : sysMgrSetupMounts env t = GoResult.ok u) :
    u.root = t.root ∧ u.process = t.process ∧ u.linux = t.linux ∧
    ∃ extra, u.mounts = t.mounts ++ extra ∧
      ∀ m ∈ extra, (∀ m2 ∈ t.mounts, m.destination ≠ m2.destination) ∧
        (t.root.readonly = true → "ro" ∈ m.options ∧ "rw" ∉ m.options) := by
  unfold sysMgrSetupMounts at h
  split at h
  rotate_left
  · exact GoResult.noConfusion h
  split_ifs at h
  split at h
  rotate_left
  · exact GoResult.noConfusion h
  · exact GoResult.noConfusion h
  rename_i mgrMounts hmm
  have hu := h
  simp only [GoResult.ok.injEq] at hu
  rw [← hu]
  refine ⟨rfl, rfl, rfl, mgrExtraMounts t mgrMounts, rfl, ?_⟩
  intro m hm
  unfold mgrExtraMounts at hm
  by_cases hro : t.root.readonly = true
  · rw [if_pos hro] at hm
    rcases List.mem_map.mp hm with ⟨m1, hm1, hms⟩
    have hd : m.destination = m1.destination := by rw [← hms]
    constructor
    · intro m2 hm2
      have hpred := (mem_mountSliceRemove.mp hm1).2 m2 hm2
      rw [decide_eq_false_iff_not] at hpred
      rw [hd]
      exact hpred
    · intro _
      have hopts : m.options = stringSliceRemove m1.options ["rw"] ++ ["ro"] := by
        rw [← hms]
      rw [hopts]
      exact roOptions_facts m1.options
  · rw [if_neg hro] at hm
    constructor
    · intro m2 hm2
      have hpred := (mem_mountSliceRemove.mp hm).2 m2 hm2
      rw [decide_eq_false_iff_not] at hpred
      exact hpred
    · intro hco
      exact absurd hco hro

/-- The invariant is preserved by the manager mount stage. -/
theorem mountRoInv_mgr {env : ConvEnv} {t u : Spec}
    (h : sysMgrSetupMounts env t = GoResult.ok u) (hro : t.root.readonly = true)
    (hinv : MountRoInv t) : MountRoInv u := by
  obtain ⟨hroot, hproc, hlinux, extra, hmounts, hextra⟩ := sysMgrSetupMounts_ok_elim h
  constructor
  · intro m hm hdest
    rw [hmounts] at hm
    rcases List.mem_append.mp hm with hm | hm
    · exact hinv.sysRo m hm hdest
    · exact (hextra m hm).2 hro
  · intro d hd
    obtain ⟨m, hm, hmd⟩ := hinv.fsPresent d hd
    exact ⟨m, by rw [hmounts]; exact List.mem_append_left _ hm, hmd⟩
  · intro m hm hdest
    rw [hmounts] at hm
    rcases List.mem_append.mp hm with hm | hm
    · exact hinv.fsNoRo m hm hdest
    · exfalso
      obtain ⟨m2, hm2, hm2d⟩ := hinv.fsPresent m.destination hdest
      exact (hextra m hm).1 m2 hm2 hm2d.symm
  · intro d hd
    rw [hlinux]
    exact hinv.fsRoPaths d hd

/-- The invariant is preserved by the systemd mount stage. -/
theorem mountRoInv_systemd {t : Spec} (hinv : MountRoInv t) :
    MountRoInv (cfgSystemdMounts t) := by
  have dSdNotSys : ∀ m ∈ sysboxSystemdMounts,
      m.destination ∉ sysSysDests ∧ m.destination ∉ fsDests := by decide
  have dFsNotSd : ∀ d ∈ fsDests, ∀ m2 ∈ sysboxSystemdMounts, d ≠ m2.destination := by
    decide
  have hmounts : (cfgSystemdMounts t).mounts =
      systemdKeepMounts t ++ systemdAddMounts t := rfl
  constructor
  · intro m hm hdest
    rw [hmounts] at hm
    rcases List.mem_append.mp hm with hm | hm
    · exact hinv.sysRo m (mem_mountSliceRemove.mp hm).1 hdest
    · exact absurd hdest (dSdNotSys m (mem_mountSliceRemove.mp hm).1).1
  · intro d hd
    obtain ⟨m, hm, hmd⟩ := hinv.fsPresent d hd
    refine ⟨m, ?_, hmd⟩
    rw [hmounts]
    refine List.mem_append_left _ (mem_mountSliceRemove.mpr ⟨hm, ?_⟩)
    intro m2 hm2
    have hne : decide (m.destination = m2.destination) = false := by
      rw [decide_eq_false_iff_not]
      rw [hmd]
      exact dFsNotSd d hd m2 hm2
    rw [hne]
    rfl
  · intro m hm hdest
    rw [hmounts] at hm
    rcases List.mem_append.mp hm with hm | hm
    · exact hinv.fsNoRo m (mem_mountSliceRemove.mp hm).1 hdest
    · exact absurd hdest (dSdNotSys m (mem_mountSliceRemove.mp hm).1).2
  · intro d hd
    exact hinv.fsRoPaths d hd

/-- The invariant is preserved by the mount sort. -/
theorem mountRoInv_sort {t : Spec} (hinv : MountRoInv t) : MountRoInv (sortMounts t) := by
  constructor
  · intro m hm hdest
    exact hinv.sysRo m (mem_sortMountList.mp hm) hdest
  · intro d hd
    obtain ⟨m, hm, hmd⟩ := hinv.fsPresent d hd
    exact ⟨m, mem_sortMountList.mpr hm, hmd⟩
  · intro m hm hdest
    exact hinv.fsNoRo m (mem_sortMountList.mp hm) hdest
  · intro d hd
    exact hinv.fsRoPaths d hd

/-- The invariant holds of the full mount configuration under a
read-only rootfs with sysbox-fs enabled, and the stage preserves the
process args. -/
theorem cfgMounts_roInv {env : ConvEnv} {t u : Spec}
    (h : cfgMounts env t = GoResult.ok u) (hro : t.root.readonly = true)
    (hfs : env.fs.enabled = true) :
    MountRoInv u ∧ u.process.args = t.process.args := by
  unfold cfgMounts at h
  split at h
  rotate_left
  · exact GoResult.noConfusion h
  · exact GoResult.noConfusion h
  rename_i spec2 h2
  split at h
  rotate_left
  · exact GoResult.noConfusion h
  · exact GoResult.noConfusion h
  rename_i bsys hbs
  have hu := h
  simp only [GoResult.ok.injEq] at hu
  have hinv2 : MountRoInv spec2 ∧ spec2.process = (mountBase env t).process := by
    by_cases hm : env.mgr.enabled = true
    · rw [if_pos hm] at h2
      have hbro : (mountBase env t).root.readonly = true := by
        rw [mountBase_root]
        exact hro
      obtain ⟨hroot2, hproc2, _, _⟩ := sysMgrSetupMounts_ok_elim h2
      exact ⟨mountRoInv_mgr h2 hbro (mountRoInv_base env t hro hfs), hproc2⟩
    · rw [if_neg hm] at h2
      have hb2 := h2
      simp only [GoResult.ok.injEq] at hb2
      rw [← hb2]
      exact ⟨mountRoInv_base env t hro hfs, rfl⟩
  have hinv3 : MountRoInv (if bsys then cfgSystemdMounts spec2 else spec2) := by
    cases bsys
    · simpa using hinv2.1
    · simpa using mountRoInv_systemd hinv2.1
  constructor
  · rw [← hu]
    exact mountRoInv_sort hinv3
  · rw [← hu]
    have hsortargs : (sortMounts (if bsys then cfgSystemdMounts spec2 else spec2)).process =
        spec2.process := by
      cases bsys <;> simp [sortMounts, cfgSystemdMounts]
    rw [hsortargs, hinv2.2, mountBase_process]

/-! ## C2: read-only rootfs propagation -/

/-- C2 (amended): for a successful conversion of a spec with a read-only
rootfs and sysbox-fs enabled, every mount at a sysbox required `/sys`
destination carries `ro` and not `rw`, the virtualized sysbox-fs mounts
are not marked `ro`, and every virtualized destination except
`/proc/sys` appears in the final `readonly_paths`; `/proc/sys` is added
during the mount stage but subsequently removed (together with `/proc`)
by the read-only path reconciliation. -/
theorem convertSpec_readonly_rootfs_propagation (env : ConvEnv) (spec s : Spec)
    (a b : Bool) (h : ConvertSpec env spec = GoResult.ok (s, a, b))
    (hro : spec.root.readonly = true) (hfs : env.fs.enabled = true) :
    (∀ m ∈ s.mounts, m.destination ∈ sysSysDests →
      "ro" ∈ m.options ∧ "rw" ∉ m.options) ∧
    (∀ m ∈ s.mounts, m.destination ∈ fsDests → "ro" ∉ m.options) ∧
    (∀ d ∈ fsDests, d ≠ "/proc/sys" → d ∈ s.linux.readonlyPaths) ∧
    "/proc/sys" ∉ s.linux.readonlyPaths := by
  obtain ⟨t, htail, htroot, _, _, _, _, _⟩ := ConvertSpec_ok_elim h
  obtain ⟨u, v, w, hu, hv, hw, hsm, hsmask, hsro, hsargs, hsroot⟩ :=
    convertTail_ok_fields htail
  have htro : t.root.readonly = true := by rw [htroot]; exact hro
  obtain ⟨hinvu, huargs⟩ := cfgMounts_roInv hu htro hfs
  obtain ⟨bs1, hbs1, hveq⟩ := cfgMaskedPaths_ok hv
  obtain ⟨bs2, hbs2, hweq⟩ := cfgReadonlyPaths_ok hw
  have hvmounts : v.mounts = u.mounts := by rw [hveq]
  have hvro : v.linux.readonlyPaths = u.linux.readonlyPaths := by rw [hveq]
  have hwmounts : w.mounts = v.mounts := by rw [hweq]
  have hwro : w.linux.readonlyPaths = readonlyAfter v bs2 := by rw [hweq]
  refine ⟨?_, ?_, ?_, ?_⟩
  · intro m hm hdest
    rw [hsm, hwmounts, hvmounts] at hm
    exact hinvu.sysRo m hm hdest
  · intro m hm hdest
    rw [hsm, hwmounts, hvmounts] at hm
    exact hinvu.fsNoRo m hm hdest
  · intro d hd hdne
    rw [hsro, hwro]
    have hdin : d ∈ v.linux.readonlyPaths := by
      rw [hvro]
      exact hinvu.fsRoPaths d hd
    have hdfacts : d ∉ sysboxSystemdRwPaths ∧ d ∉ sysboxRwPaths := by
      have hall : ∀ d2 ∈ fsDests, d2 ≠ "/proc/sys" →
          d2 ∉ sysboxSystemdRwPaths ∧ d2 ∉ sysboxRwPaths := by decide
      exact hall d hd hdne
    unfold readonlyAfter
    refine mem_stringSliceRemove.mpr ⟨?_, hdfacts.2⟩
    cases bs2
    · exact hdin
    · exact mem_stringSliceRemove.mpr ⟨hdin, hdfacts.1⟩
  · rw [hsro, hwro]
    unfold readonlyAfter
    intro hmem
    exact (mem_stringSliceRemove.mp hmem).2 (by decide)

/-- C2 counterexample: as stated, the claim requires every virtualized
destination — `/proc/sys` among them — to appear in `readonly_paths` of
the final converted spec; on this concrete read-only-rootfs conversion
the final `readonly_paths` does not contain `/proc/sys` (it is removed
by `cfgReadonlyPaths` right after the mount stage added it). -/
theorem convertSpec_readonly_proc_sys_counterexample :
    c2Spec.root.readonly = true ∧ c2Env.fs.enabled = true ∧
    "/proc/sys" ∈ fsDests ∧
    convIsOk (ConvertSpec c2Env c2Spec) = true ∧
    "/proc/sys" ∉ (convSpecOf (ConvertSpec c2Env c2Spec)).linux.readonlyPaths := by
  decide

/-- Witness for the amended C2 at the concrete conversion. -/
theorem convertSpec_readonly_rootfs_propagation_witness :
    (∀ m ∈ (convSpecOf (ConvertSpec c2Env c2Spec)).mounts,
      m.destination ∈ sysSysDests → "ro" ∈ m.options ∧ "rw" ∉ m.options) ∧
    (∀ m ∈ (convSpecOf (ConvertSpec c2Env c2Spec)).mounts,
      m.destination ∈ fsDests → "ro" ∉ m.options) ∧
    (∀ d ∈ fsDests, d ≠ "/proc/sys" →
      d ∈ (convSpecOf (ConvertSpec c2Env c2Spec)).linux.readonlyPaths) ∧
    "/proc/sys" ∉ (convSpecOf (ConvertSpec c2Env c2Spec)).linux.readonlyPaths :=
  convertSpec_readonly_rootfs_propagation c2Env c2Spec
    (convSpecOf (ConvertSpec c2Env c2Spec)) false false (by decide) rfl rfl

/-! ## C5: masked and read-only path disjointness -/

/-- C5: after any successful conversion the masked paths contain none of
the sysbox exposed paths (plus the systemd exposed paths when the init
is `/sbin/init`), and the read-only paths contain none of the sysbox
read-write paths (plus the systemd read-write paths under systemd). -/
theorem convertSpec_masked_readonly_disjoint (env : ConvEnv) (spec s : Spec)
    (a b : Bool) (h : ConvertSpec env spec = GoResult.ok (s, a, b)) :
    (∀ q ∈ sysboxExposedPaths, q ∉ s.linux.maskedPaths) ∧
    (∀ q ∈ sysboxRwPaths, q ∉ s.linux.readonlyPaths) ∧
    (s.process.args.headD "" = "/sbin/init" →
      (∀ q ∈ sysboxSystemdExposedPaths, q ∉ s.linux.maskedPaths) ∧
      (∀ q ∈ sysboxSystemdRwPaths, q ∉ s.linux.readonlyPaths)) := by
  obtain ⟨t, htail, _, _, _, _, _, _⟩ := ConvertSpec_ok_elim h
  obtain ⟨u, v, w, hu, hv, hw, hsm, hsmask, hsro, hsargs, _⟩ :=
    convertTail_ok_fields htail
  obtain ⟨bs1, hbs1, hveq⟩ := cfgMaskedPaths_ok hv
  obtain ⟨bs2, hbs2, hweq⟩ := cfgReadonlyPaths_ok hw
  have hwmask : w.linux.maskedPaths = maskedAfter u bs1 := by rw [hweq, hveq]
  have hwro : w.linux.readonlyPaths = readonlyAfter v bs2 := by rw [hweq]
  have hvargs : v.process.args = u.process.args := by rw [hveq]
  have hwargs : w.process.args = v.process.args := by rw [hweq]
  have hsu : s.process.args = u.process.args := by rw [hsargs, hwargs, hvargs]
  have hsv : s.process.args = v.process.args := by rw [hsargs, hwargs]
  refine ⟨?_, ?_, ?_⟩
  · intro q hq
    rw [hsmask, hwmask]
    unfold maskedAfter
    intro hmem
    exact (mem_stringSliceRemove.mp hmem).2 hq
  · intro q hq
    rw [hsro, hwro]
    unfold readonlyAfter
    intro hmem
    exact (mem_stringSliceRemove.mp hmem).2 hq
  · intro hsys
    have hbs : ∀ (p2 : ProcessE) (bs : Bool), p2.args = s.process.args →
        systemdInit p2 = GoResult.ok bs → bs = true := by
      intro p2 bs hpargs hsd
      cases hargs : p2.args with
      | nil =>
        unfold systemdInit at hsd
        rw [hargs] at hsd
        exact GoResult.noConfusion hsd
      | cons a2 as2 =>
        have ha2 : a2 = "/sbin/init" := by
          have h2 : s.process.args = a2 :: as2 := by rw [← hpargs, hargs]
          rw [h2] at hsys
          simpa using hsys
        unfold systemdInit at hsd
        rw [hargs] at hsd
        have hd2 := hsd
        simp only [GoResult.ok.injEq] at hd2
        rw [← hd2, ha2]
        simp
    have hbs1t : bs1 = true := hbs u.process bs1 hsu.symm hbs1
    have hbs2t : bs2 = true := hbs v.process bs2 hsv.symm hbs2
    subst hbs1t
    subst hbs2t
    constructor
    · intro q hq
      rw [hsmask, hwmask]
      unfold maskedAfter
      intro hmem
      have hin := (mem_stringSliceRemove.mp hmem).1
      exact (mem_stringSliceRemove.mp hin).2 hq
    · intro q hq
      rw [hsro, hwro]
      unfold readonlyAfter
      intro hmem
      have hin := (mem_stringSliceRemove.mp hmem).1
      exact (mem_stringSliceRemove.mp hin).2 hq

/-- Witness for C5 at a concrete systemd conversion. -/
theorem convertSpec_masked_readonly_disjoint_witness :
    (∀ q ∈ sysboxExposedPaths,
      q ∉ (convSpecOf (ConvertSpec c5Env c5Spec)).linux.maskedPaths) ∧
    (∀ q ∈ sysboxRwPaths,
      q ∉ (convSpecOf (ConvertSpec c5Env c5Spec)).linux.readonlyPaths) ∧
    ((convSpecOf (ConvertSpec c5Env c5Spec)).process.args.headD "" = "/sbin/init" →
      (∀ q ∈ sysboxSystemdExposedPaths,
        q ∉ (convSpecOf (ConvertSpec c5Env c5Spec)).linux.maskedPaths) ∧
      (∀ q ∈ sysboxSystemdRwPaths,
        q ∉ (convSpecOf (ConvertSpec c5Env c5Spec)).linux.readonlyPaths)) :=
  convertSpec_masked_readonly_disjoint c5Env c5Spec
    (convSpecOf (ConvertSpec c5Env c5Spec)) false false (by decide)

/-! ## C10: empty process args -/

/-- C10: the systemd test reads `args[0]` unconditionally, so process
conversion is defined (and succeeds) for every process with non-empty
args, and panics with an index-out-of-range error — rather than
returning an error — on an empty args list. -/
theorem convertProcessSpec_empty_args_panics (p : ProcessE) :
    (p.args = [] → ConvertProcessSpec p = GoResult.panicked "index out of range") ∧
    (p.args ≠ [] → ∃ q, ConvertProcessSpec p = GoResult.ok q) := by
  have hargs : (cfgAppArmor (cfgCapabilities p)).args = p.args := cfgCapabilities_args p
  constructor
  · intro h
    have hs : systemdInit (cfgAppArmor (cfgCapabilities p)) =
        GoResult.panicked "index out of range" := by
      unfold systemdInit
      rw [hargs, h]
    simp only [ConvertProcessSpec]
    rw [hs]
  · intro h
    cases hp : p.args with
    | nil => exact absurd hp h
    | cons a as =>
      have hs : systemdInit (cfgAppArmor (cfgCapabilities p)) =
          GoResult.ok (decide (a = "/sbin/init")) := by
        unfold systemdInit
        rw [hargs, hp]
      refine ⟨if decide (a = "/sbin/init") then cfgSystemdEnv (cfgAppArmor (cfgCapabilities p))
        else cfgAppArmor (cfgCapabilities p), ?_⟩
      simp only [ConvertProcessSpec]
      rw [hs]

/-- Witness for C10 at concrete processes with empty and non-empty
args. -/
theorem convertProcessSpec_empty_args_panics_witness :
    (ConvertProcessSpec
        { args := [], env := [], user := ⟨0, 0⟩, capabilities := ⟨[], [], [], [], []⟩,
          apparmorProfile := "", oomScoreAdj := none } =
      GoResult.panicked "index out of range") ∧
    (∃ q, ConvertProcessSpec
        { args := ["/bin/sh"], env := [], user := ⟨0, 0⟩,
          capabilities := ⟨[], [], [], [], []⟩, apparmorProfile := "",
          oomScoreAdj := none } = GoResult.ok q) :=
  ⟨(convertProcessSpec_empty_args_panics _).1 rfl,
   (convertProcessSpec_empty_args_panics _).2 (by decide)⟩

/-- Witness for C3 at a concrete whitelist-mode profile. -/
theorem cfgSeccomp_whitelist_closure_witness :
    (archX86_64 ∈ ([archX86_64] : List String)) ∧
    ∃ s2, cfgSeccompWith ["mount"] ["socket"]
        (some { defaultAction := .actErrno, architectures := [archX86_64],
                syscalls := [] }) = GoResult.ok (some s2) ∧
      (∀ w ∈ (["mount"] : List String),
        w ∈ actionNames SeccompAction.actAllow s2.syscalls) ∧
      (∀ sc ∈ s2.syscalls, (∃ n, n ∈ sc.names ∧ n ∉ (["socket"] : List String)) →
        sc.args = []) :=
  ⟨by decide,
    cfgSeccomp_whitelist_closure ["mount"] ["socket"]
      { defaultAction := .actErrno, architectures := [archX86_64], syscalls := [] }
      (by decide) (Or.inl rfl)⟩

end Syscont

namespace Orchestrator

/-- If the straight-line phase of the init launch reports no error, every step
of it succeeded; in particular the config was sent to the init process. -/
theorem preLoopErr_none_sendConfig {cfg : InitConfigM} {env : InitEnv}
    (h : preLoopErr cfg env = none) : env.sendConfigOk = true := by
  cases hf : (preLoopChecks cfg env).find? (fun c => c.1) with
  | some c => simp [preLoopErr, hf] at h
  | none =>
    have hall := List.find?_eq_none.mp hf
    have hsc := hall (!env.sendConfigOk, "sending config to init process")
      (by simp [preLoopChecks])
    simpa using hsc

/-- Reduction of `initStart` when the fork succeeds and the body succeeds. -/
theorem initStart_eq_none {cfg : InitConfigM} {env : InitEnv}
    (hstart : env.cmdStartOk = true) (hb : (initStartBody cfg env).2 = none) :
    initStart cfg env = ((initStartBody cfg env).1, none) := by
  simp [initStart, hstart, hb]

/-- Reduction of `initStart` when the fork succeeds and the body fails: the
deferred rollback actions are appended to the trace. -/
theorem initStart_eq_some {cfg : InitConfigM} {env : InitEnv} {e : String}
    (hstart : env.cmdStartOk = true) (hb : (initStartBody cfg env).2 = some e) :
    initStart cfg env = ((initStartBody cfg env).1 ++ rollbackEvents cfg, some e) := by
  simp [initStart, hstart, hb]

/-- C7: once the init command has forked, every error return of
`initProcess.start` runs the deferred rollback: SIGKILL plus wait on the
bootstrapper, destruction of the cgroup allocation, destruction of the Intel
RDT allocation when one is configured; and when the failure happened before
the config was sent to the init process, no sysbox-fs registration has been
performed. -/
theorem initStart_error_rollback (cfg : InitConfigM) (env : InitEnv) (e : String)
    (hstart : env.cmdStartOk = true) (herr : (initStart cfg env).2 = some e) :
    Event.killEv ∈ (initStart cfg env).1 ∧ Event.waitEv ∈ (initStart cfg env).1 ∧
    Event.destroyCgroupEv ∈ (initStart cfg env).1 ∧
    (cfg.rdtConfigured = true → Event.destroyRdtEv ∈ (initStart cfg env).1) ∧
    (env.sendConfigOk = false → Event.registerEv ∉ (initStart cfg env).1) := by
  cases hb : (initStartBody cfg env).2 with
  | none =>
    rw [initStart_eq_none hstart hb] at herr
    exact absurd herr (by simp)
  | some e2 =>
    have heq := initStart_eq_some hstart hb
    rw [heq]
    refine ⟨?_, ?_, ?_, ?_, ?_⟩
    · simp [rollbackEvents]
    · simp [rollbackEvents]
    · simp [rollbackEvents]
    · intro hr
      simp [rollbackEvents, hr]
    · intro hsc hmem
      simp only [List.mem_append] at hmem
      rcases hmem with hmem | hmem
      · cases hp : preLoopErr cfg env with
        | some e3 =>
          have hb1 : (initStartBody cfg env).1 = [] := by simp [initStartBody, hp]
          rw [hb1] at hmem
          exact absurd hmem (by simp)
        | none => exact absurd (preLoopErr_none_sendConfig hp) (by simp [hsc])
      · revert hmem
        unfold rollbackEvents
        cases cfg.rdtConfigured <;> decide

/-- Witness for C7: a concrete launch in which every step succeeds except
sending the config, with RDT configured. -/
theorem initStart_error_rollback_witness :
    c7Env.cmdStartOk = true ∧
    (initStart plainCfg c7Env).2 = some "sending config to init process" ∧
    (Event.killEv ∈ (initStart plainCfg c7Env).1 ∧
     Event.waitEv ∈ (initStart plainCfg c7Env).1 ∧
     Event.destroyCgroupEv ∈ (initStart plainCfg c7Env).1 ∧
     (plainCfg.rdtConfigured = true → Event.destroyRdtEv ∈ (initStart plainCfg c7Env).1) ∧
     (c7Env.sendConfigOk = false → Event.registerEv ∉ (initStart plainCfg c7Env).1)) :=
  ⟨rfl, by decide,
   initStart_error_rollback plainCfg c7Env "sending config to init process" rfl (by decide)⟩

/-- Only the `procReady` handler ever writes a `procRun` reply. -/
theorem handleMsg_runMsg {cfg : InitConfigM} {m : SyncMsg}
    (h : Event.runMsgEv ∈ (handleMsg cfg m).1) : ∃ e, m = SyncMsg.procReady e := by
  cases m with
  | procReady e => exact ⟨e, rfl⟩
  | rootfsReady e =>
    exfalso
    revert h
    simp only [handleMsg, handleRootfsReady]
    split_ifs <;> simp
  | procHooks e =>
    exfalso
    revert h
    simp only [handleMsg, handleProcHooks]
    split_ifs <;> simp
  | reqOp e =>
    exfalso
    revert h
    simp only [handleMsg, handleReqOp]
    split_ifs <;> simp
  | procFd e =>
    exfalso
    revert h
    simp only [handleMsg, handleProcFd]
    split_ifs <;> simp
  | unknown =>
    exfalso
    revert h
    simp [handleMsg]

/-- A `procRun` reply in the sync-loop trace comes from a `procReady`
message in the stream. -/
theorem runSyncLoop_runMsg {cfg : InitConfigM} {msgs : List SyncMsg}
    (h : Event.runMsgEv ∈ (runSyncLoop cfg msgs).1) :
    ∃ e, SyncMsg.procReady e ∈ msgs := by
  induction msgs with
  | nil => exact absurd h (by simp [runSyncLoop])
  | cons m rest ih =>
    simp only [runSyncLoop] at h
    cases hr : (handleMsg cfg m).2 with
    | some e2 =>
      simp only [hr] at h
      obtain ⟨e, he⟩ := handleMsg_runMsg h
      exact ⟨e, by rw [he]; exact List.mem_cons_self _ _⟩
    | none =>
      simp only [hr] at h
      rcases List.mem_append.mp h with h1 | h2
      · obtain ⟨e, he⟩ := handleMsg_runMsg h1
        exact ⟨e, by rw [he]; exact List.mem_cons_self _ _⟩
      · obtain ⟨e, he⟩ := ih h2
        exact ⟨e, List.mem_cons_of_mem _ he⟩

/-- C8: a successful return of `initProcess.start` requires that a `procRun`
reply was written during the sync loop, which only the handler of a
`procReady` message does; and when a new mount namespace is configured, the
start also requires that a `procResume` reply was written. -/
theorem initStart_success_requires_procReady (cfg : InitConfigM) (env : InitEnv)
    (h : (initStart cfg env).2 = none) :
    Event.runMsgEv ∈ (initStart cfg env).1 ∧
    (∃ e, SyncMsg.procReady e ∈ env.msgs) ∧
    (cfg.hasNewMountNs = true → Event.resumeMsgEv ∈ (initStart cfg env).1) := by
  have hstart : env.cmdStartOk = true := by
    cases hcs : env.cmdStartOk with
    | false =>
      rw [initStart, if_pos hcs] at h
      exact absurd h (by simp)
    | true => rfl
  cases hb : (initStartBody cfg env).2 with
  | some e2 =>
    rw [initStart_eq_some hstart hb] at h
    exact absurd h (by simp)
  | none =>
    rw [initStart_eq_none hstart hb]
    cases hp : preLoopErr cfg env with
    | some e3 =>
      have hcon : (initStartBody cfg env).2 = some e3 := by simp [initStartBody, hp]
      rw [hb] at hcon
      exact absurd hcon (by simp)
    | none =>
      by_cases hrun : Event.runMsgEv ∈ (runSyncLoop cfg env.msgs).1
      · by_cases hres : cfg.hasNewMountNs = true ∧
          Event.resumeMsgEv ∉ (runSyncLoop cfg env.msgs).1
        · have hcon : (initStartBody cfg env).2 =
              some "could not synchronise after executing prestart and CreateRuntime hooks with container process" := by
            simp [initStartBody, hp, hrun, hres.1, hres.2]
          rw [hb] at hcon
          exact absurd hcon (by simp)
        · have htr : (initStartBody cfg env).1 = (runSyncLoop cfg env.msgs).1 := by
            by_cases hsh : env.shutdownOk = false
            · simp [initStartBody, hp, hrun, hres, hsh]
            · simp [initStartBody, hp, hrun, hres, hsh]
          rw [htr]
          refine ⟨hrun, runSyncLoop_runMsg hrun, ?_⟩
          intro hnew
          by_contra hnr
          exact hres ⟨hnew, hnr⟩
      · have hcon : (initStartBody cfg env).2 = some "container init" := by
          simp [initStartBody, hp, hrun]
        rw [hb] at hcon
        exact absurd hcon (by simp)

/-- Witness for C8: a concrete successful launch whose message stream is a
single all-successful `procReady`. -/
theorem initStart_success_requires_procReady_witness :
    (initStart plainCfg (allOkEnv [SyncMsg.procReady procReadyAllOk])).2 = none ∧
    (Event.runMsgEv ∈ (initStart plainCfg (allOkEnv [SyncMsg.procReady procReadyAllOk])).1 ∧
     (∃ e, SyncMsg.procReady e ∈ (allOkEnv [SyncMsg.procReady procReadyAllOk]).msgs) ∧
     (plainCfg.hasNewMountNs = true →
       Event.resumeMsgEv ∈ (initStart plainCfg (allOkEnv [SyncMsg.procReady procReadyAllOk])).1)) :=
  ⟨by decide,
   initStart_success_requires_procReady plainCfg (allOkEnv [SyncMsg.procReady procReadyAllOk])
     (by decide)⟩

/-- C9 (amended): with configured cgroup paths, non-rootless cgroups and a
failing `EnterPid`, the fallback of writing the pid into the init process
cgroup fires exactly when cgroup v2 unified mode is active and the init
cgroup file parses with a root entry — regardless of which error `EnterPid`
returned, not only on EBUSY; otherwise, or when the fallback write itself
fails, the placement error aborts the launch and the deferred terminate
kills and reaps the setns process. -/
theorem setnsPlacement_unified_fallback (env : SetnsEnv) (msg : String)
    (hpaths : env.cgroupPathsNonempty = true)
    (hrootless : env.rootlessCgroups = false)
    (henter : env.enterPidErr = some msg) :
    ((env.isUnified && env.parseCgroupOk && env.hasRootKey) = true →
      (env.writeCgroupProcOk = true →
        setnsPlacement env = ([Event.fallbackWriteEv], none)) ∧
      (env.writeCgroupProcOk = false →
        setnsPlacement env =
          ([Event.fallbackWriteEv],
           some "adding pid to cgroups: write cgroup procs failed"))) ∧
    ((env.isUnified && env.parseCgroupOk && env.hasRootKey) = false →
      setnsPlacement env = ([], some ("adding pid to cgroups: " ++ msg))) ∧
    (∀ evs e2, setnsPlacement env = (evs, some e2) →
      env.cmdStartOk = true → env.copyBootstrapOk = true → env.execSetnsOk = true →
      (setnsStart env).2 = GoResult.err e2 ∧ Event.killEv ∈ (setnsStart env).1 ∧
      Event.waitEv ∈ (setnsStart env).1) := by
  have hform : setnsPlacement env =
      (if env.isUnified && env.parseCgroupOk && env.hasRootKey then
        if env.writeCgroupProcOk then ([Event.fallbackWriteEv], none)
        else ([Event.fallbackWriteEv],
          some "adding pid to cgroups: write cgroup procs failed")
       else ([], some ("adding pid to cgroups: " ++ msg))) := by
    simp [setnsPlacement, hpaths, henter, hrootless]
  refine ⟨?_, ?_, ?_⟩
  · intro hcond
    constructor
    · intro hw
      rw [hform, if_pos hcond, if_pos hw]
    · intro hw
      rw [hform, if_pos hcond, if_neg (by simp [hw])]
  · intro hcond
    rw [hform, if_neg (by simp [hcond])]
  · intro evs e2 hpl hcs hcb hex
    have hbody : setnsBody env = (evs, GoResult.err e2) := by
      simp [setnsBody, hcb, hex, hpl]
    have hst : setnsStart env = (evs ++ [Event.killEv, Event.waitEv], GoResult.err e2) := by
      simp [setnsStart, hcs, hbody]
    rw [hst]
    refine ⟨rfl, ?_, ?_⟩ <;> simp

/-- C9 counterexample to the literal claim: `EnterPid` fails with EPERM (not
EBUSY) under cgroup v2 unified mode, yet `setnsProcess.start` recovers
through the fallback write and succeeds instead of aborting. -/
theorem setnsStart_non_ebusy_recovery_counterexample :
    c9Env.enterPidErr = some "operation not permitted" ∧
    (setnsStart c9Env).2 = GoResult.ok () ∧
    Event.fallbackWriteEv ∈ (setnsStart c9Env).1 := by decide

/-- Witness for C9 at the concrete EPERM environment. -/
theorem setnsPlacement_unified_fallback_witness :
    (c9Env.cgroupPathsNonempty = true ∧ c9Env.rootlessCgroups = false ∧
     c9Env.enterPidErr = some "operation not permitted" ∧
     (c9Env.isUnified && c9Env.parseCgroupOk && c9Env.hasRootKey) = true ∧
     c9Env.writeCgroupProcOk = true) ∧
    setnsPlacement c9Env = ([Event.fallbackWriteEv], none) :=
  ⟨by decide,
   ((setnsPlacement_unified_fallback c9Env "operation not permitted" rfl rfl rfl).1
     (by decide)).1 rfl⟩

end Orchestrator
